import Mathlib

/-!
Verification of the Qualcomm diag protocol engine
(edlclient/Tools/qc_diag.py, class QualcommDiagClient).

Byte strings are lists of naturals; the transport collaborator is modelled as
a scripted list of responses consumed in order, with an exhausted script
returning empty bytes (the spec's "returns empty bytes on failure/timeout").
Python runtime faults (IndexError on indexing empty bytes, struct.error on
unpacking a short slice, TypeError on unpacking a non-sequence) are modelled
with an Except layer, since the source installs no exception handlers around
the code under study.
-/

namespace QCDiag

/-- A Python bytes value: a list of byte values. -/
abbrev Bytes := List Nat

/-- Little-endian 16-bit encode, as struct.pack with format H.  Values are
reduced mod 2^16; all call sites in the source pass in-range values. -/
def le16 (n : Nat) : Bytes := [n % 256, n / 256 % 256]

/-- Little-endian 32-bit encode, as struct.pack with format I. -/
def le32 (n : Nat) : Bytes := [n % 256, n / 256 % 256, n / 65536 % 256, n / 16777216 % 256]

/-- Little-endian 16-bit decode. -/
def rd16 (a b : Nat) : Nat := a + 256 * b

/-- Little-endian 32-bit decode. -/
def rd32 (a b c d : Nat) : Nat := a + 256 * b + 65536 * c + 16777216 * d

/-- Reinterpret an unsigned 32-bit value as signed (struct format i). -/
def sInt32 (n : Nat) : Int := if n < 2147483648 then (n : Int) else (n : Int) - 4294967296

/-- Python slice data a..b (clamping, as Python slices do). -/
def pySlice (l : Bytes) (a b : Nat) : Bytes := (l.take b).drop a

/-- Python slice data a..-k (negative end index). -/
def pySliceNeg (l : Bytes) (a k : Nat) : Bytes := (l.take (l.length - k)).drop a

/-- Python runtime faults that can escape the engine. -/
inductive PyErr where
  | indexError
  | structError
  | typeError
  | binasciiError
deriving DecidableEq, Repr

/-- Python indexing data i : raises IndexError when out of range. -/
def pyIndex (l : Bytes) (i : Nat) : Except PyErr Nat :=
  match l.get? i with
  | some b => .ok b
  | none => .error .indexError

/-- struct.unpack of one byte (format B): the slice must be exactly 1 byte. -/
def unpack8 (bs : Bytes) : Except PyErr Nat :=
  match bs with
  | [a] => .ok a
  | _ => .error .structError

/-- struct.unpack of format H: the slice must be exactly 2 bytes. -/
def unpack16 (bs : Bytes) : Except PyErr Nat :=
  match bs with
  | [a, b] => .ok (rd16 a b)
  | _ => .error .structError

/-- struct.unpack of format I: the slice must be exactly 4 bytes. -/
def unpack32 (bs : Bytes) : Except PyErr Nat :=
  match bs with
  | [a, b, c, d] => .ok (rd32 a b c d)
  | _ => .error .structError

/-- struct.unpack of format i (signed): exactly 4 bytes, sign-extended. -/
def unpack32s (bs : Bytes) : Except PyErr Int :=
  match bs with
  | [a, b, c, d] => .ok (sInt32 (rd32 a b c d))
  | _ => .error .structError

/-- struct.unpack of format 128s: the slice must be exactly 128 bytes. -/
def unpackRaw128 (bs : Bytes) : Except PyErr Bytes :=
  if bs.length = 128 then .ok bs else .error .structError

/-- struct.pack of format I for a Python int: raises when out of range. -/
def pack32u (i : Int) : Except PyErr Bytes :=
  if 0 ≤ i ∧ i < 4294967296 then .ok (le32 i.toNat) else .error .structError

/-- struct.pack of format i for a Python int: raises when out of range. -/
def pack32s (i : Int) : Except PyErr Bytes :=
  if -2147483648 ≤ i ∧ i < 2147483648 then .ok (le32 ((i % 4294967296).toNat))
  else .error .structError

/-- struct.pack of format 128s: zero-pad or truncate to 128 bytes. -/
def fit128 (bs : Bytes) : Bytes := bs.take 128 ++ List.replicate (128 - bs.length) 0

/-- Python hex(n) for a nonnegative int. -/
def pyHex (n : Nat) : String := "0x" ++ (Nat.toDigits 16 n).asString

/-- binascii.hexlify(data).decode of one nibble. -/
def nibbleChar (n : Nat) : Char := Nat.digitChar n

/-- binascii.hexlify(data).decode: two lowercase hex chars per byte. -/
def hexlifyStr (bs : Bytes) : String :=
  (bs.flatMap (fun b => [nibbleChar (b / 16 % 16), nibbleChar (b % 16)])).asString

/-- bytes(path, "utf-8") for the ASCII paths the tool sends. -/
def strBytes (s : String) : Bytes := s.data.map Char.toNat

/-! ## The transport model

The engine owns a half-duplex channel: send(request) returns the device's
response bytes, or empty bytes on failure/timeout.  A session is driven by a
script of responses consumed in order; the state also records every request
sent (to state trace properties) and the bytes written to the local output
file by the export/copy operations. -/

structure DiagSt where
  pending : List Bytes
  sent : List Bytes
  written : Bytes
deriving DecidableEq, Repr

instance {ε α : Type} [DecidableEq ε] [DecidableEq α] : DecidableEq (Except ε α) := fun a b =>
  match a, b with
  | .ok x, .ok y =>
      if h : x = y then isTrue (by rw [h]) else isFalse (fun hc => h (Except.ok.inj hc))
  | .error e, .error f =>
      if h : e = f then isTrue (by rw [h]) else isFalse (fun hc => h (Except.error.inj hc))
  | .ok _, .error _ => isFalse (fun hc => Except.noConfusion hc)
  | .error _, .ok _ => isFalse (fun hc => Except.noConfusion hc)

/-- The session monad: state plus Python faults. -/
def DiagM (α : Type) := DiagSt → Except PyErr α × DiagSt

instance : Monad DiagM where
  pure a := fun s => (.ok a, s)
  bind x f := fun s =>
    match x s with
    | (.ok a, s') => f a s'
    | (.error e, s') => (.error e, s')

/-- self.send(cmd): log the request, pop the next scripted response, empty
bytes when the script is exhausted. -/
def dsend (req : Bytes) : DiagM Bytes := fun s =>
  match s.pending with
  | [] => (.ok [], { s with sent := s.sent ++ [req] })
  | r :: rest => (.ok r, { s with pending := rest, sent := s.sent ++ [req] })

/-- write_handle.write(data) on the local output file. -/
def fwrite (bs : Bytes) : DiagM Unit := fun s => (.ok (), { s with written := s.written ++ bs })

/-- Run a pure fallible computation inside the session. -/
def liftE {α : Type} (x : Except PyErr α) : DiagM α := fun s => (x, s)

/-! ## unpackdata (qc_diag.py lines 1119-1127)

The source walks the data from the end, remembering in idx the position of
the last zero byte seen, and stops at the first nonzero byte; idx starts at
rlen - 1 and the function returns data[:idx]. -/

/-- The loop of unpackdata: rev is the unscanned data in reverse order, p the
position rlen - 1 - i of the byte about to be inspected, idx the running
index. -/
def unpackLoopIdx : List Nat → Nat → Nat → Nat
  | [], _, idx => idx
  | b :: rest, p, idx => if b ≠ 0 then idx else unpackLoopIdx rest (p - 1) p

def unpackdata (data : Bytes) : Bytes :=
  data.take (unpackLoopIdx data.reverse (data.length - 1) (data.length - 1))

/-- The transformation the spec describes: remove exactly the maximal
trailing run of zero bytes. -/
def stripTrailZeros (data : Bytes) : Bytes :=
  (data.reverse.dropWhile (fun b => b = 0)).reverse

/-! ## Record codec for the NV item layouts

The source calls write_object / read_object from edlclient.Library.utils,
which is not part of the sources under study; the spec treats the codec as an
external collaborator with fixed-width little-endian fields and 128-byte
zero-padded raw data. -/

/-- Modelled from the spec: write_object for nvitem_type, the fixed layout
item:u16 LE, rawdata:128 bytes (zero padded / truncated, struct 128s),
status:u16 LE; returns the raw_data buffer. -/
def packNvitem (item : Nat) (rawdata : Bytes) (status : Nat) : Bytes :=
  le16 item ++ fit128 rawdata ++ le16 status

/-- Modelled from the spec: write_object for subnvitem_type, the layout
item:u16, index:u16, rawdata:128s, status:u16, all little-endian. -/
def packSubNvitem (item index : Nat) (rawdata : Bytes) (status : Nat) : Bytes :=
  le16 item ++ le16 index ++ fit128 rawdata ++ le16 status

/-- Modelled from the spec: read_object for nvitem_type; unpacking each
fixed-width field raises struct.error when the data is too short. -/
def decodeNvitem (d : Bytes) : Except PyErr (Nat × Bytes × Nat) := do
  let item ← unpack16 (pySlice d 0 2)
  let raw ← unpackRaw128 (pySlice d 2 130)
  let status ← unpack16 (pySlice d 130 132)
  .ok (item, raw, status)

/-- Modelled from the spec: read_object for subnvitem_type. -/
def decodeSubNvitem (d : Bytes) : Except PyErr (Nat × Nat × Bytes × Nat) := do
  let item ← unpack16 (pySlice d 0 2)
  let index ← unpack16 (pySlice d 2 4)
  let raw ← unpackRaw128 (pySlice d 4 132)
  let status ← unpack16 (pySlice d 132 134)
  .ok (item, index, raw, status)

/-! ## NvStore (qc_diag.py lines 1119-1238) -/

/-- The NVitem record created by a read (qc_diag.py class NVitem). -/
structure NVitem where
  item : Nat
  index : Nat
  data : Bytes
  status : Nat
  name : String
deriving DecidableEq, Repr

/-- The pair returned by read_nvitem / read_nvitemsub: either True with a
decoded item or False with a diagnostic string. -/
inductive NvRes where
  | success (nv : NVitem)
  | failure (msg : String)
deriving DecidableEq, Repr

/-- The request bytes built by read_nvitem. -/
def nv_read_req (item : Nat) : Bytes :=
  0x26 :: packNvitem item (List.replicate 128 0) 0

/-- The request bytes built by read_nvitemsub. -/
def nv_sub_read_req (item index : Nat) : Bytes :=
  [0x4B, 0x30, 0x01, 0x00] ++ packSubNvitem item index (List.replicate 128 0) 0

/-- The rawdata padding of write_nvitem / write_nvitemsub (the while loop
appending zero bytes until the length reaches 128). -/
def pad128 (data : Bytes) : Bytes := data ++ List.replicate (128 - data.length) 0

/-- The request bytes built by write_nvitem. -/
def nv_write_req (item : Nat) (data : Bytes) : Bytes :=
  0x27 :: packNvitem item (pad128 data) 0

/-- The request bytes built by write_nvitemsub. -/
def nv_sub_write_req (item index : Nat) (data : Bytes) : Bytes :=
  [0x4B, 0x30, 0x02, 0x00] ++ packSubNvitem item index (pad128 data) 0

/-- read_nvitem (lines 1129-1149).  nvl is the id-to-name catalog the
constructor loads from nvitems.xml (an external collaborator). -/
def read_nvitem (nvl : Nat → Option String) (item : Nat) : DiagM NvRes := do
  let data ← dsend (nv_read_req item)
  let data ← if data.length = 0 then dsend (nv_read_req item) else pure data
  if data.length > 0 then
    if data.headI = 0x26 then do
      let res ← liftE (decodeNvitem (data.drop 1))
      let name := (nvl item).getD ""
      pure (.success ⟨res.1, 0, unpackdata res.2.1, res.2.2, name⟩)
    else if data.headI = 0x14 then
      pure (.failure ("Error 0x14 trying to read nvitem " ++ pyHex item ++ "."))
    else
      pure (.failure ("Error " ++ pyHex data.headI ++ " trying to read nvitem " ++ pyHex item ++ "."))
  else
    pure (.failure ("Empty request for nvitem " ++ pyHex item))

/-- read_nvitemsub (lines 1151-1171); the decode skips the 4-byte subsystem
header, and the resulting NVitem carries the requested index. -/
def read_nvitemsub (nvl : Nat → Option String) (item index : Nat) : DiagM NvRes := do
  let data ← dsend (nv_sub_read_req item index)
  let data ← if data.length = 0 then dsend (nv_sub_read_req item index) else pure data
  if data.length > 0 then
    if data.headI = 0x4B then do
      let res ← liftE (decodeSubNvitem (data.drop 4))
      let name := (nvl item).getD ""
      pure (.success ⟨res.1, index, unpackdata res.2.2.1, res.2.2.2, name⟩)
    else if data.headI = 0x14 then
      pure (.failure ("Error 0x14 trying to read nvitem " ++ pyHex item ++ "."))
    else
      pure (.failure ("Error " ++ pyHex data.headI ++ " trying to read nvitem " ++ pyHex item ++ "."))
  else
    pure (.failure ("Empty request for nvitem " ++ pyHex item))

/-- write_nvitem (lines 1195-1215).  Returns some true on verified success,
some false on a failed or mismatching verify read, and none (the implicit
Python None) when the response is empty or its leading byte is not 0x27. -/
def write_nvitem (nvl : Nat → Option String) (item : Nat) (data : Bytes) :
    DiagM (Option Bool) := do
  let res ← dsend (nv_write_req item data)
  if res.length > 0 then
    if res.headI = 0x27 then do
      let r ← read_nvitem nvl item
      match r with
      | .failure _ => pure (some false)
      | .success nv => if nv.data ≠ data then pure (some false) else pure (some true)
    else pure none
  else pure none

/-- write_nvitemsub (lines 1217-1238), the subsystem-family twin. -/
def write_nvitemsub (nvl : Nat → Option String) (item index : Nat) (data : Bytes) :
    DiagM (Option Bool) := do
  let res ← dsend (nv_sub_write_req item index data)
  if res.length > 0 then
    if res.headI = 0x4B then do
      let r ← read_nvitemsub nvl item index
      match r with
      | .failure _ => pure (some false)
      | .success nv => if nv.data ≠ data then pure (some false) else pure (some true)
    else pure none
  else pure none

/-! ## convertimei / write_imei (lines 1173-1193) -/

/-- A hex digit's value; binascii.unhexlify raises on non-hex characters. -/
def hexVal (c : Char) : Except PyErr Nat :=
  if '0' ≤ c ∧ c ≤ '9' then .ok (c.toNat - 48)
  else if 'a' ≤ c ∧ c ≤ 'f' then .ok (c.toNat - 87)
  else if 'A' ≤ c ∧ c ≤ 'F' then .ok (c.toNat - 55)
  else .error .binasciiError

/-- binascii.unhexlify of a character sequence; raises on odd length. -/
def unhexlifyChars : List Char → Except PyErr Bytes
  | [] => .ok []
  | [_] => .error .binasciiError
  | a :: b :: rest => do
      let ha ← hexVal a
      let hb ← hexVal b
      let t ← unhexlifyChars rest
      .ok ((16 * ha + hb) :: t)

/-- Python string indexing: raises IndexError when out of range. -/
def pyStrIndex (cs : List Char) (i : Nat) : Except PyErr Char :=
  match cs.get? i with
  | some c => .ok c
  | none => .error .indexError

/-- The digit-pair swap loop of convertimei, over the index list
range(1, len(imei), 2): each step appends imei at i+1 then imei at i. -/
def imeiPairs (cs : List Char) : List Nat → Except PyErr (List Char)
  | [] => .ok []
  | i :: rest => do
      let a ← pyStrIndex cs (i + 1)
      let b ← pyStrIndex cs i
      let t ← imeiPairs cs rest
      .ok (a :: b :: t)

/-- convertimei (lines 1173-1178): the marker nibble A after the first digit,
then pairwise-swapped digits, prefixed with hex byte 08 and unhexlified. -/
def convertimei (imei : String) : Except PyErr Bytes := do
  let cs := imei.data
  let c0 ← pyStrIndex cs 0
  let pairs ← imeiPairs cs (List.range' 1 (cs.length / 2) 2)
  unhexlifyChars ('0' :: '8' :: c0 :: 'A' :: pairs)

/-- The per-IMEI loop of write_imei: index 0 goes through the flat write
first and falls back to a sub-item write when that does not return True
(Python None and False are both falsy); later indices go straight to
sub-item writes. -/
def write_imei_go (nvl : Nat → Option String) : List String → Nat → DiagM Unit
  | [], _ => pure ()
  | imei :: rest, index => do
      let data ← liftE (convertimei imei)
      if index = 0 then do
        let r ← write_nvitem nvl 550 data
        if r ≠ some true then do
          let _ ← write_nvitemsub nvl 550 index data
          write_imei_go nvl rest (index + 1)
        else
          write_imei_go nvl rest (index + 1)
      else do
        let _ ← write_nvitemsub nvl 550 index data
        write_imei_go nvl rest (index + 1)

/-- Python str.split on a comma, at character level. -/
def splitCommaAux : List Char → List Char → List (List Char)
  | [], acc => [acc.reverse]
  | c :: cs, acc =>
      if c = ',' then acc.reverse :: splitCommaAux cs [] else splitCommaAux cs (c :: acc)

/-- The split-or-singleton branch of write_imei: imeis.split on a comma when
one is present, otherwise the one-element list — which is also what the
split returns on comma-free input. -/
def pySplitComma (s : String) : List String :=
  (splitCommaAux s.data []).map (fun cs => ⟨cs⟩)

/-- write_imei (lines 1180-1193). -/
def write_imei (nvl : Nat → Option String) (imeis : String) : DiagM Unit :=
  write_imei_go nvl (pySplitComma imeis) 0

/-! ## decode_nvitems / backup_nvitems (lines 988-1117) -/

/-- decode_nvitems (lines 988-1024): NV status code to label. -/
def decode_nvitems (nv : NVitem) : String :=
  match nv.status with
  | 0x1 => "Internal DMSS use"
  | 0x2 => "Unrecognized command"
  | 0x3 => "NV memory full"
  | 0x4 => "Command failed"
  | 0x5 => "Inactive Item"
  | 0x6 => "Bad Parameter"
  | 0x7 => "Item was read-only"
  | 0x8 => "Item not defined for this target"
  | 0x9 => "No more free memory"
  | 0xA => "Internal use"
  | 0x0 => "OK"
  | _ => ""

/-- One element of the JSON backup list built by backup_nvitems. -/
structure NvBackupEntry where
  id : Nat
  name : String
  data : String
  status : String
deriving DecidableEq, Repr

/-- The dict appended for a kept item: id, name, hexlified data and the
decoded status label. -/
def entryOfNv (nv : NVitem) : NvBackupEntry :=
  ⟨nv.item, nv.name, hexlifyStr nv.data, decode_nvitems nv⟩

/-- The scan loop of backup_nvitems: read each id; keep a successful read
whose status is not 5 (inactive); append the message of a failed read to the
error log and continue. -/
def backup_loop (nvl : Nat → Option String) :
    List Nat → List NvBackupEntry → String → DiagM (List NvBackupEntry × String)
  | [], acc, errs => pure (acc, errs)
  | item :: rest, acc, errs => do
      let r ← read_nvitem nvl item
      match r with
      | .success nv =>
          if nv.status ≠ 5 then backup_loop nvl rest (acc ++ [entryOfNv nv]) errs
          else backup_loop nvl rest acc errs
      | .failure m => backup_loop nvl rest acc (errs ++ m ++ "\n")

/-- backup_nvitems (lines 1090-1117): the item loop is range(0, 0xFFFF); the
function persists the entry list as JSON and the error string to files,
modelled here as the returned pair. -/
def backup_nvitems (nvl : Nat → Option String) : DiagM (List NvBackupEntry × String) :=
  backup_loop nvl (List.range 0xFFFF) [] ""

/-- An empty id-to-name catalog, for concrete runs. -/
def nvlNone : Nat → Option String := fun _ => none

/-- convertimei of the 15-digit IMEI 490154203237518: marker nibble A after
the first digit, then pairwise-swapped digits, behind the 08 length byte. -/
def imeiTestBytes : Bytes := [0x08, 0x4A, 0x09, 0x51, 0x24, 0x30, 0x32, 0x57, 0x81]

/-! ## EfsBridge constants (qc_diag.py lines 254-701) -/

def DIAG_BAD_CMD_F : Nat := 0x13
def DIAG_BAD_PARM_F : Nat := 0x14
def DIAG_BAD_LEN_F : Nat := 0x15
def DIAG_BAD_SEC_MODE_F : Nat := 0x47

def EFS2_DIAG_OPEN : Nat := 2
def EFS2_DIAG_CLOSE : Nat := 3
def EFS2_DIAG_READ : Nat := 4
def EFS2_DIAG_WRITE : Nat := 5
def EFS2_DIAG_UNLINK : Nat := 8
def EFS2_DIAG_MKDIR : Nat := 9
def EFS2_DIAG_RMDIR : Nat := 10
def EFS2_DIAG_OPENDIR : Nat := 11
def EFS2_DIAG_READDIR : Nat := 12
def EFS2_DIAG_CLOSEDIR : Nat := 13
def EFS2_DIAG_STAT : Nat := 15
def EFS2_DIAG_LSTAT : Nat := 16
def EFS2_DIAG_FSTAT : Nat := 17
def EFS2_DIAG_CHMOD : Nat := 18
def EFS2_DIAG_FACT_IMAGE_START : Nat := 22
def EFS2_DIAG_FACT_IMAGE_READ : Nat := 23
def EFS2_DIAG_FACT_IMAGE_END : Nat := 24
def EFS2_DIAG_PREP_FACT_IMAGE : Nat := 25
def EFS2_DIAG_CHOWN : Nat := 30
def EFS2_DIAG_GET : Nat := 39

def O_RDONLY : Nat := 0
def O_WRONLY : Nat := 1
def O_RDWR : Nat := 2
def O_ACCMODE : Nat := O_RDONLY ||| O_WRONLY ||| O_RDWR
def FS_DIAG_MAX_READ_REQ : Nat := 1024

/-! ## EFS request builders

Every EFS request opens with pack BBBB of 0x4B, the session's method byte,
the command value and 0x00; the builders below each model one buf
construction from the source. -/

/-- The shared 4-byte subsystem header of every EFS request. -/
def efs_req (m c : Nat) : Bytes := [0x4B, m % 256, c % 256, 0]

def efs_open_req (m oflag mode : Nat) (path : String) : Bytes :=
  efs_req m EFS2_DIAG_OPEN ++ le32 oflag ++ le32 mode ++ strBytes path ++ [0]

def efs_close_req (m : Nat) (fb : Bytes) : Bytes := efs_req m EFS2_DIAG_CLOSE ++ fb

def efs_stat_req (m : Nat) (path : String) : Bytes :=
  efs_req m EFS2_DIAG_STAT ++ strBytes path ++ [0]

def efs_lstat_req (m : Nat) (path : String) : Bytes :=
  efs_req m EFS2_DIAG_LSTAT ++ strBytes path ++ [0]

def efs_fstat_req (m : Nat) (fb : Bytes) : Bytes := efs_req m EFS2_DIAG_FSTAT ++ fb

/-- The buf of efs_read (line 1599): the command byte is EFS2_DIAG_WRITE,
exactly as in the source. -/
def efs_read_req (m : Nat) (fb : Bytes) (nbytes offset : Nat) : Bytes :=
  efs_req m EFS2_DIAG_WRITE ++ fb ++ le32 nbytes ++ le32 offset

def efs_write_req (m : Nat) (fb : Bytes) (offset : Nat) (data : Bytes) : Bytes :=
  efs_req m EFS2_DIAG_WRITE ++ fb ++ le32 offset ++ data

def efs_opendir_req (m : Nat) (path : String) : Bytes :=
  efs_req m EFS2_DIAG_OPENDIR ++ strBytes path ++ [0]

def efs_readdir_req (m dirp seqno : Nat) : Bytes :=
  efs_req m EFS2_DIAG_READDIR ++ le32 dirp ++ le32 seqno

def efs_closedir_req (m dirp : Nat) : Bytes := efs_req m EFS2_DIAG_CLOSEDIR ++ le32 dirp

def efs_rmdir_req (m : Nat) (path : String) : Bytes :=
  efs_req m EFS2_DIAG_RMDIR ++ strBytes path ++ [0]

def efs_unlink_req (m : Nat) (path : String) : Bytes :=
  efs_req m EFS2_DIAG_UNLINK ++ strBytes path ++ [0]

def efs_chown_req (m : Nat) (ub gb : Bytes) (path : String) : Bytes :=
  efs_req m EFS2_DIAG_CHOWN ++ ub ++ gb ++ strBytes path ++ [0]

def efs_chmod_req (m mode : Nat) (path : String) : Bytes :=
  efs_req m EFS2_DIAG_CHMOD ++ le16 mode ++ strBytes path ++ [0]

def efs_mkdir_req (m mode : Nat) (path : String) : Bytes :=
  efs_req m EFS2_DIAG_MKDIR ++ le16 mode ++ strBytes path ++ [0]

def efs_get_req (m data_length path_length seqno : Nat) (path : String) : Bytes :=
  efs_req m EFS2_DIAG_GET ++ le32 data_length ++ le32 path_length ++ le16 seqno ++
    strBytes path ++ [0]

/-- The probe pair of efsread (lines 1241-1242). -/
def alternateefs_fact : Bytes := [0x4B, 0x3E, 0x19, 0x00]

def standardefs_fact : Bytes := [0x4B, 0x13, 0x19, 0x00]

/-- The probe pair of efslistdir / efsreadfile / efswritefile. -/
def alternateefs_file : Bytes := [0x4B, 0x3E, 0x00, 0x00] ++ List.replicate 0x28 0

def standardefs_file : Bytes := [0x4B, 0x13, 0x00, 0x00] ++ List.replicate 0x28 0

/-! ## EfsBridge operations -/

/-- efsdiagerror (lines 1380-1407): the twelve EFS error codes map to -1,
anything else to 0. -/
def efsdiagerror (errcode : Nat) : Int :=
  if 0x40000001 ≤ errcode ∧ errcode ≤ 0x4000000c then -1 else 0

/-- The method-probe block repeated verbatim at the top of efsread,
efslistdir, efsreadfile and efswritefile: try the alternate probe, select
0x3E on a 0x4B echo, otherwise try the standard probe and select 0x13 on a
0x4B echo; indexing byte 0 of an empty response raises. -/
def efs_probe (alt std : Bytes) : DiagM (Option Nat) := do
  let resp ← dsend alt
  let b0 ← liftE (pyIndex resp 0)
  if b0 = 0x4B then pure (some 0x3E)
  else do
    let resp2 ← dsend std
    let b0' ← liftE (pyIndex resp2 0)
    if b0' = 0x4B then pure (some 0x13) else pure none

/-- efs_opendir (lines 1416-1425): Python returns the dirp, -1 on a decoded
EFS error, or None when the leading byte is one of the two reject opcodes. -/
def efs_opendir (m : Nat) (path : String) : DiagM (Option Int) := do
  let resp ← dsend (efs_opendir_req m path)
  let b0 ← liftE (pyIndex resp 0)
  if b0 ≠ DIAG_BAD_SEC_MODE_F ∧ b0 ≠ DIAG_BAD_LEN_F then do
    let dirp ← liftE (unpack32 (pySlice resp 0x4 0x8))
    let de ← liftE (unpack32 (pySlice resp 0x8 0xC))
    if efsdiagerror de ≠ 0 then pure (some (-1)) else pure (some (dirp : Int))
  else pure none

/-- efs_open (lines 1464-1474): the descriptor is decoded signed. -/
def efs_open (m oflag mode : Nat) (path : String) : DiagM (Option Int) := do
  let resp ← dsend (efs_open_req m oflag mode path)
  let b0 ← liftE (pyIndex resp 0)
  if b0 ≠ DIAG_BAD_SEC_MODE_F ∧ b0 ≠ DIAG_BAD_LEN_F then do
    let fdata ← liftE (unpack32s (pySlice resp 0x4 0x8))
    let de ← liftE (unpack32 (pySlice resp 0x8 0xC))
    if efsdiagerror de ≠ 0 then pure (some (-1)) else pure (some fdata)
  else pure none

/-- efs_close (lines 1476-1481): no leading-byte guard; the error word is
unpacked straight from bytes 4..8. -/
def efs_close (m : Nat) (fdata : Int) : DiagM Int := do
  let fb ← liftE (pack32s fdata)
  let resp ← dsend (efs_close_req m fb)
  let de ← liftE (unpack32 (pySlice resp 0x4 0x8))
  pure (efsdiagerror de)

/-- The value efs_fstat evaluates to: None, -1, or the six stat fields. -/
inductive FstatRes where
  | noneR
  | neg1
  | fields (mode size nlink atime mtime ctime : Nat)
deriving DecidableEq, Repr

/-- efs_fstat (lines 1499-1513). -/
def efs_fstat (m : Nat) (fdata : Int) : DiagM FstatRes := do
  let fb ← liftE (pack32u fdata)
  let resp ← dsend (efs_fstat_req m fb)
  let b0 ← liftE (pyIndex resp 0)
  if b0 ≠ DIAG_BAD_SEC_MODE_F ∧ b0 ≠ DIAG_BAD_LEN_F then do
    let de ← liftE (unpack32 (pySlice resp 0x4 0x8))
    let mode ← liftE (unpack32 (pySlice resp 0x8 0xC))
    let size ← liftE (unpack32 (pySlice resp 0xC 0x10))
    let nlink ← liftE (unpack32 (pySlice resp 0x10 0x14))
    let atime ← liftE (unpack32 (pySlice resp 0x14 0x18))
    let mtime ← liftE (unpack32 (pySlice resp 0x18 0x1C))
    let ctime ← liftE (unpack32 (pySlice resp 0x1C 0x20))
    if efsdiagerror de ≠ 0 then pure .neg1 else pure (.fields mode size nlink atime mtime ctime)
  else pure .noneR

/-- The value efs_read evaluates to: None, -1, or the decoded quadruple. -/
inductive EfsReadRes where
  | noneR
  | neg1
  | fields (fdata : Int) (offset bytes_read : Nat) (data : Bytes)
deriving DecidableEq, Repr

/-- efs_read (lines 1598-1610): note the request carries EFS2_DIAG_WRITE. -/
def efs_read (m : Nat) (fdata : Int) (nbytes offset : Nat) : DiagM EfsReadRes := do
  let fb ← liftE (pack32u fdata)
  let resp ← dsend (efs_read_req m fb nbytes offset)
  let b0 ← liftE (pyIndex resp 0)
  if b0 ≠ DIAG_BAD_SEC_MODE_F ∧ b0 ≠ DIAG_BAD_LEN_F then do
    let fd' ← liftE (unpack32s (pySlice resp 0x4 0x8))
    let off ← liftE (unpack32 (pySlice resp 0x8 0xC))
    let br ← liftE (unpack32 (pySlice resp 0xC 0x10))
    let de ← liftE (unpack32 (pySlice resp 0x10 0x14))
    let data := resp.drop 0x14
    if efsdiagerror de ≠ 0 then pure .neg1 else pure (.fields fd' off br data)
  else pure .noneR

/-! ## efsreadfile (lines 1612-1657) -/

/-- The chunked read loop of efsreadfile.  The source reassigns fdata and
offset from each response, then advances offset by the chunk size; an
efs_read result of -1 breaks the loop, a result of None makes the following
tuple unpacking raise TypeError.  The final fdata is returned for the
trailing efs_close. -/
def efsreadfile_loop (m : Nat) (fdata : Int) (offset dataleft : Nat) : DiagM Int :=
  if h : 0 < dataleft then do
    let rsize := min dataleft FS_DIAG_MAX_READ_REQ
    let finfo ← efs_read m fdata rsize offset
    match finfo with
    | .neg1 => pure fdata
    | .noneR => liftE (.error .typeError)
    | .fields fd' off' _ data => do
        fwrite data
        efsreadfile_loop m fd' (off' + rsize) (dataleft - rsize)
  else pure fdata
termination_by dataleft
decreasing_by
  simp only [FS_DIAG_MAX_READ_REQ]
  omega

/-- efsreadfile (lines 1612-1657).  The local num_bytes is initialised to 0,
never updated anywhere in the source, and returned at the end; a probe
failure and every early abort also return 0.  A None from efs_open makes the
fdata == -1 test false (None is not -1 in Python) and the subsequent
efs_fstat pack of None raise; a None or -1 from efs_fstat makes the six-name
tuple unpacking raise. -/
def efsreadfile (srcpath dstpath : String) : DiagM Nat := do
  let mo ← efs_probe alternateefs_file standardefs_file
  match mo with
  | none => pure 0
  | some m => do
    let fdo ← efs_open m O_RDONLY 0 srcpath
    match fdo with
    | none => liftE (.error .structError)
    | some fd =>
      if fd = -1 then pure 0
      else do
        let st ← efs_fstat m fd
        match st with
        | .noneR => liftE (.error .typeError)
        | .neg1 => liftE (.error .typeError)
        | .fields mode size _ _ _ _ =>
          if size = 0 then do
            let _ ← efs_close m fd
            pure 0
          else if mode &&& O_ACCMODE = O_WRONLY then do
            let _ ← efs_close m fd
            pure 0
          else do
            let num_bytes := 0
            let fd' ← efsreadfile_loop m fd 0 size
            let _ ← efs_close m fd'
            pure num_bytes

/-- A concrete session script for efsreadfile: the probe echoes 0x4B, the
open response yields descriptor 1, the fstat response reports size 4 with
mode 0, the read response carries the four payload bytes AA BB CC DD behind
its 20-byte header, and the close response is all zeros. -/
def efs_copy_success_script : List Bytes :=
  [[0x4B],
   [0, 0, 0, 0, 1, 0, 0, 0, 0, 0, 0, 0],
   [0, 0, 0, 0, 0, 0, 0, 0, 0, 0, 0, 0, 4, 0, 0, 0] ++ List.replicate 16 0,
   [0, 0, 0, 0, 1, 0, 0, 0, 0, 0, 0, 0, 4, 0, 0, 0, 0, 0, 0, 0, 0xAA, 0xBB, 0xCC, 0xDD],
   List.replicate 8 0]

/-! ## FactoryImageStreamer (qc_diag.py lines 84-215 and 1240-1370) -/

/-- The resumable page cursor (class FactImageReadInfo). -/
structure FactImageReadInfo where
  stream_state : Nat
  info_cluster_sent : Nat
  cluster_map_seqno : Nat
  cluster_data_seqno : Nat
deriving DecidableEq, Repr

/-- FactImageReadInfo.from_data: read_object of layout B B H I over the
first 0x10 bytes of the given slice. -/
def factInfoFromData (d : Bytes) : Except PyErr FactImageReadInfo := do
  let d := pySlice d 0 0x10
  let ss ← unpack8 (pySlice d 0 1)
  let ics ← unpack8 (pySlice d 1 2)
  let cms ← unpack16 (pySlice d 2 4)
  let cds ← unpack32 (pySlice d 4 8)
  .ok ⟨ss, ics, cms, cds⟩

/-- The factory image header (class FactoryHeader). -/
structure FactoryHeader where
  magic1 : Nat
  magic2 : Nat
  fact_version : Nat
  version : Nat
  block_size : Nat
  page_size : Nat
  block_count : Nat
  space_limit : Nat
  upper_data : List Nat
deriving DecidableEq, Repr

/-- Little-endian u32 sequence decode for the 32I upper_data field. -/
def decodeU32s : Bytes → List Nat
  | a :: b :: c :: d :: rest => rd32 a b c d :: decodeU32s rest
  | _ => []

/-- struct.unpack of format 32I: the slice must be exactly 128 bytes. -/
def unpackU32x32 (bs : Bytes) : Except PyErr (List Nat) :=
  if bs.length = 128 then .ok (decodeU32s bs) else .error .structError

/-- FactoryHeader.from_data: read_object of layout I I H H I I I I 32I over
the first 0x9C bytes of the given slice. -/
def factoryHeaderFromData (d : Bytes) : Except PyErr FactoryHeader := do
  let d := pySlice d 0 0x9C
  let magic1 ← unpack32 (pySlice d 0 4)
  let magic2 ← unpack32 (pySlice d 4 8)
  let fact_version ← unpack16 (pySlice d 8 10)
  let version ← unpack16 (pySlice d 10 12)
  let block_size ← unpack32 (pySlice d 12 16)
  let page_size ← unpack32 (pySlice d 16 20)
  let block_count ← unpack32 (pySlice d 20 24)
  let space_limit ← unpack32 (pySlice d 24 28)
  let upper_data ← unpackU32x32 (pySlice d 28 156)
  .ok ⟨magic1, magic2, fact_version, version, block_size, page_size, block_count,
       space_limit, upper_data⟩

/-- The FactoryHeader() zero initialiser. -/
def factoryHeaderInit : FactoryHeader := ⟨0, 0, 0, 0, 0, 0, 0, 0, [0]⟩

/-- The pack BBBBBBHI page-read request of efsread, built from the current
cursor. -/
def fact_image_read_req (m : Nat) (f : FactImageReadInfo) : Bytes :=
  [0x4B, m % 256, EFS2_DIAG_FACT_IMAGE_READ, 0x00, f.stream_state % 256,
   f.info_cluster_sent % 256] ++ le16 f.cluster_map_seqno ++ le32 f.cluster_data_seqno

/-- The page loop of efsread (lines 1313-1349), counting down the remaining
pages of range(0, total).  The source's resp == 0 and resp == -1 tests
compare a bytes value against an int, which is always False in Python, so
the in-loop retry block is dead and the main else branch always runs.  A
response whose length minus 0x11 is neither 0x200 nor 0x800 falls through
the dlen test with no else and the loop silently continues; within the dlen
arm, a 0x4B leading byte appends the payload and refreshes the cursor, the
legacy 0x13 0x62 shape writes and refreshes at its own offsets and breaks
when the new stream_state is 0, and anything else sets efserr and breaks. -/
def efsread_loop (m : Nat) (fefs : FactImageReadInfo) (efserr : Bool) :
    Nat → DiagM (FactImageReadInfo × Bool)
  | 0 => pure (fefs, efserr)
  | n + 1 => do
    let resp ← dsend (fact_image_read_req m fefs)
    let dlen : Int := (resp.length : Int) - 0x11
    if dlen = 0x200 ∨ dlen = 0x800 then do
      let b0 ← liftE (pyIndex resp 0)
      if b0 = 0x4B then do
        fwrite (pySlice resp 0x10 (0x10 + dlen.toNat))
        let fefs' ← liftE (factInfoFromData (pySlice resp 0x8 0x10))
        efsread_loop m fefs' efserr n
      else if b0 = 0x13 then do
        let b1 ← liftE (pyIndex resp 1)
        if b1 = 0x62 ∧ 0x200 < resp.length then do
          fwrite (pySliceNeg resp 0x14 4)
          let fefs' ← liftE (factInfoFromData (pySlice resp 0xC 0x14))
          if fefs'.stream_state = 0 then pure (fefs', efserr)
          else efsread_loop m fefs' efserr n
        else pure (fefs, true)
      else pure (fefs, true)
    else efsread_loop m fefs efserr n

/-- The body of efsread after a successful method probe (lines 1254-1370).
The first-page retry block (lines 1283-1288) compares bytes against ints and
is dead, like the in-loop one.  The error word is unpacked from bytes 4..8
before the leading byte is inspected; the three unsupported leading bytes, a
non-zero error word, and the security-gate leading byte 0x47 each abort with
False before any further request — in particular without sending the
FACT_IMAGE_END command.  After the loop the END command is always sent. -/
def efsread_body (m : Nat) (filename : String) : DiagM (Option Bool) := do
  if filename = "" then pure (some false)
  else do
    let resp1 ← dsend (efs_req m EFS2_DIAG_PREP_FACT_IMAGE)
    if resp1.length = 0 then pure (some false)
    else do
      let _ ← dsend (efs_req m EFS2_DIAG_FACT_IMAGE_START)
      let fefs0 : FactImageReadInfo := ⟨0, 0, 0, 0⟩
      let resp ← dsend (fact_image_read_req m fefs0)
      let error ← liftE (unpack32 (pySlice resp 4 8))
      let b0 ← liftE (pyIndex resp 0)
      if b0 = 0x13 ∨ b0 = 0x14 ∨ b0 = 0x15 ∨ error ≠ 0 then pure (some false)
      else if b0 = 0x47 then pure (some false)
      else do
        let hdr ← if 0 < resp.length then do
            fwrite (pySliceNeg resp 0x10 0x1)
            let fefs1 ← liftE (factInfoFromData (pySlice resp 0x8 0x10))
            let fh ← liftE (factoryHeaderFromData (pySlice resp 0x10 (0x10 + 39 * 4)))
            pure (fefs1, fh)
          else pure (fefs0, factoryHeaderInit)
        let total := hdr.2.block_size * hdr.2.block_count * (hdr.2.page_size / 0x200)
        let lres ← efsread_loop m hdr.1 false total
        let respEnd ← dsend (efs_req m EFS2_DIAG_FACT_IMAGE_END)
        if respEnd.length = 0 then pure (some false)
        else if lres.2 = false then pure (some true)
        else pure (some false)

/-- efsread (lines 1240-1370): probe, then run the export; a failed probe
prints a message and falls off the function, the Python None return. -/
def efsread (filename : String) : DiagM (Option Bool) := do
  let mo ← efs_probe alternateefs_fact standardefs_fact
  match mo with
  | none => pure none
  | some m => efsread_body m filename

/-- The value read_nvitem computes from the effective (second-try) response,
used to characterise its runs; proved to match read_nvitem by
read_nvitem_run below. -/
def read_nvitem_result (nvl : Nat → Option String) (item : Nat) (d : Bytes) :
    Except PyErr NvRes :=
  if d.length > 0 then
    if d.headI = 0x26 then
      match decodeNvitem (d.drop 1) with
      | .ok res => .ok (.success ⟨res.1, 0, unpackdata res.2.1, res.2.2, (nvl item).getD ""⟩)
      | .error e => .error e
    else if d.headI = 0x14 then
      .ok (.failure ("Error 0x14 trying to read nvitem " ++ pyHex item ++ "."))
    else
      .ok (.failure ("Error " ++ pyHex d.headI ++ " trying to read nvitem " ++ pyHex item ++ "."))
  else .ok (.failure ("Empty request for nvitem " ++ pyHex item))

/-- The value read_nvitemsub computes from the effective response, the
subsystem-family twin of read_nvitem_result. -/
def read_nvitemsub_result (nvl : Nat → Option String) (item index : Nat) (d : Bytes) :
    Except PyErr NvRes :=
  if d.length > 0 then
    if d.headI = 0x4B then
      match decodeSubNvitem (d.drop 4) with
      | .ok res =>
          .ok (.success ⟨res.1, index, unpackdata res.2.2.1, res.2.2.2, (nvl item).getD ""⟩)
      | .error e => .error e
    else if d.headI = 0x14 then
      .ok (.failure ("Error 0x14 trying to read nvitem " ++ pyHex item ++ "."))
    else
      .ok (.failure ("Error " ++ pyHex d.headI ++ " trying to read nvitem " ++ pyHex item ++ "."))
  else .ok (.failure ("Empty request for nvitem " ++ pyHex item))

/-! ## Helper lemmas -/

theorem bind_apply {α β : Type} (x : DiagM α) (f : α → DiagM β) (s : DiagSt) :
    (x >>= f) s = match x s with
      | (.ok a, s') => f a s'
      | (.error e, s') => (.error e, s') := rfl

theorem pure_apply {α : Type} (a : α) (s : DiagSt) : (pure a : DiagM α) s = (.ok a, s) := rfl

/-- How a read_nvitem run unfolds over any script: one send, a second only
when the first response is empty, and the result computed from the effective
response. -/
theorem read_nvitem_run (nvl : Nat → Option String) (item : Nat) (pending : List Bytes)
    (sent0 : List Bytes) (w0 : Bytes) :
    read_nvitem nvl item ⟨pending, sent0, w0⟩ =
      match pending with
      | [] => (read_nvitem_result nvl item [],
               ⟨[], sent0 ++ [nv_read_req item, nv_read_req item], w0⟩)
      | r1 :: rest1 =>
        if r1.length = 0 then
          match rest1 with
          | [] => (read_nvitem_result nvl item [],
                   ⟨[], sent0 ++ [nv_read_req item, nv_read_req item], w0⟩)
          | r2 :: rest2 => (read_nvitem_result nvl item r2,
                            ⟨rest2, sent0 ++ [nv_read_req item, nv_read_req item], w0⟩)
        else (read_nvitem_result nvl item r1,
              ⟨rest1, sent0 ++ [nv_read_req item], w0⟩)
    := by
  have hres : ∀ (d : Bytes) (st : DiagSt),
      ((if d.length > 0 then
          if d.headI = 0x26 then do
            let res ← liftE (decodeNvitem (d.drop 1))
            pure (NvRes.success ⟨res.1, 0, unpackdata res.2.1, res.2.2, (nvl item).getD ""⟩)
          else if d.headI = 0x14 then
            pure (NvRes.failure ("Error 0x14 trying to read nvitem " ++ pyHex item ++ "."))
          else
            pure (NvRes.failure
              ("Error " ++ pyHex d.headI ++ " trying to read nvitem " ++ pyHex item ++ "."))
        else pure (NvRes.failure ("Empty request for nvitem " ++ pyHex item))) : DiagM NvRes) st =
      (read_nvitem_result nvl item d, st) := by
    intro d st
    rcases d with _ | ⟨b, bs⟩
    · rfl
    · by_cases hb : b = 0x26
      · subst hb
        simp only [read_nvitem_result]
        rcases hdec : decodeNvitem ((0x26 :: bs).drop 1) with e | t
        · simp [bind_apply, liftE]
        · simp [bind_apply, liftE, pure_apply]
      · by_cases hb14 : b = 0x14
        · subst hb14
          simp [read_nvitem_result, List.headI, pure_apply]
        · simp [read_nvitem_result, List.headI, hb, hb14, pure_apply]
  rcases pending with _ | ⟨r1, rest1⟩
  · simpa [read_nvitem, bind_apply, dsend] using
      hres [] ⟨[], sent0 ++ [nv_read_req item, nv_read_req item], w0⟩
  · rcases r1 with _ | ⟨b, bs⟩
    · rcases rest1 with _ | ⟨r2, rest2⟩
      · simpa [read_nvitem, bind_apply, dsend] using
          hres [] ⟨[], sent0 ++ [nv_read_req item, nv_read_req item], w0⟩
      · simpa [read_nvitem, bind_apply, dsend] using
          hres r2 ⟨rest2, sent0 ++ [nv_read_req item, nv_read_req item], w0⟩
    · simpa [read_nvitem, bind_apply, dsend] using
        hres (b :: bs) ⟨rest1, sent0 ++ [nv_read_req item], w0⟩

/-- How a read_nvitemsub run unfolds over any script, as read_nvitem_run. -/
theorem read_nvitemsub_run (nvl : Nat → Option String) (item index : Nat)
    (pending : List Bytes) (sent0 : List Bytes) (w0 : Bytes) :
    read_nvitemsub nvl item index ⟨pending, sent0, w0⟩ =
      match pending with
      | [] => (read_nvitemsub_result nvl item index [],
               ⟨[], sent0 ++ [nv_sub_read_req item index, nv_sub_read_req item index], w0⟩)
      | r1 :: rest1 =>
        if r1.length = 0 then
          match rest1 with
          | [] => (read_nvitemsub_result nvl item index [],
                   ⟨[], sent0 ++ [nv_sub_read_req item index, nv_sub_read_req item index], w0⟩)
          | r2 :: rest2 =>
              (read_nvitemsub_result nvl item index r2,
               ⟨rest2, sent0 ++ [nv_sub_read_req item index, nv_sub_read_req item index], w0⟩)
        else (read_nvitemsub_result nvl item index r1,
              ⟨rest1, sent0 ++ [nv_sub_read_req item index], w0⟩)
    := by
  have hres : ∀ (d : Bytes) (st : DiagSt),
      ((if d.length > 0 then
          if d.headI = 0x4B then do
            let res ← liftE (decodeSubNvitem (d.drop 4))
            pure (NvRes.success
              ⟨res.1, index, unpackdata res.2.2.1, res.2.2.2, (nvl item).getD ""⟩)
          else if d.headI = 0x14 then
            pure (NvRes.failure ("Error 0x14 trying to read nvitem " ++ pyHex item ++ "."))
          else
            pure (NvRes.failure
              ("Error " ++ pyHex d.headI ++ " trying to read nvitem " ++ pyHex item ++ "."))
        else pure (NvRes.failure ("Empty request for nvitem " ++ pyHex item))) : DiagM NvRes) st =
      (read_nvitemsub_result nvl item index d, st) := by
    intro d st
    rcases d with _ | ⟨b, bs⟩
    · rfl
    · by_cases hb : b = 0x4B
      · subst hb
        simp only [read_nvitemsub_result]
        rcases hdec : decodeSubNvitem ((0x4B :: bs).drop 4) with e | t
        · simp [bind_apply, liftE]
        · simp [bind_apply, liftE, pure_apply]
      · by_cases hb14 : b = 0x14
        · subst hb14
          simp [read_nvitemsub_result, List.headI, pure_apply]
        · simp [read_nvitemsub_result, List.headI, hb, hb14, pure_apply]
  rcases pending with _ | ⟨r1, rest1⟩
  · simpa [read_nvitemsub, bind_apply, dsend] using
      hres [] ⟨[], sent0 ++ [nv_sub_read_req item index, nv_sub_read_req item index], w0⟩
  · rcases r1 with _ | ⟨b, bs⟩
    · rcases rest1 with _ | ⟨r2, rest2⟩
      · simpa [read_nvitemsub, bind_apply, dsend] using
          hres [] ⟨[], sent0 ++ [nv_sub_read_req item index, nv_sub_read_req item index], w0⟩
      · simpa [read_nvitemsub, bind_apply, dsend] using
          hres r2 ⟨rest2, sent0 ++ [nv_sub_read_req item index, nv_sub_read_req item index], w0⟩
    · simpa [read_nvitemsub, bind_apply, dsend] using
        hres (b :: bs) ⟨rest1, sent0 ++ [nv_sub_read_req item index], w0⟩

/-- How a write_nvitem run unfolds: one write send, then the verifying read
only on a non-empty 0x27-led response, the result flipped from the data
comparison. -/
theorem write_nvitem_run (nvl : Nat → Option String) (item : Nat) (data : Bytes)
    (pending sent0 : List Bytes) (w0 : Bytes) :
    write_nvitem nvl item data ⟨pending, sent0, w0⟩ =
      match pending with
      | [] => (.ok none, ⟨[], sent0 ++ [nv_write_req item data], w0⟩)
      | wr :: rest =>
        if wr.length = 0 then (.ok none, ⟨rest, sent0 ++ [nv_write_req item data], w0⟩)
        else if wr.headI = 0x27 then
          match read_nvitem nvl item ⟨rest, sent0 ++ [nv_write_req item data], w0⟩ with
          | (.ok (.success nv), st2) =>
              ((if nv.data = data then .ok (some true) else .ok (some false)), st2)
          | (.ok (.failure _), st2) => (.ok (some false), st2)
          | (.error e, st2) => (.error e, st2)
        else (.ok none, ⟨rest, sent0 ++ [nv_write_req item data], w0⟩)
    := by
  rcases pending with _ | ⟨wr, rest⟩
  · rfl
  · rcases wr with _ | ⟨b, bs⟩
    · rfl
    · by_cases hb : b = 0x27
      · subst hb
        simp only [write_nvitem, bind_apply, dsend]
        simp only [List.length_cons, gt_iff_lt, Nat.succ_pos, if_true, List.headI, if_pos rfl,
          Nat.succ_ne_zero, if_false]
        rcases hrd : read_nvitem nvl item ⟨rest, sent0 ++ [nv_write_req item data], w0⟩
          with ⟨r, st2⟩
        rw [bind_apply, hrd]
        rcases r with e | nv | m
        · simp
        · by_cases hd : nv.data = data
          · simp [hd, pure_apply]
          · simp [hd, pure_apply]
        · simp [pure_apply]
      · simp only [write_nvitem, bind_apply, dsend]
        simp [List.headI, hb, pure_apply]

/-- How a write_nvitemsub run unfolds, the subsystem-family twin. -/
theorem write_nvitemsub_run (nvl : Nat → Option String) (item index : Nat) (data : Bytes)
    (pending sent0 : List Bytes) (w0 : Bytes) :
    write_nvitemsub nvl item index data ⟨pending, sent0, w0⟩ =
      match pending with
      | [] => (.ok none, ⟨[], sent0 ++ [nv_sub_write_req item index data], w0⟩)
      | wr :: rest =>
        if wr.length = 0 then
          (.ok none, ⟨rest, sent0 ++ [nv_sub_write_req item index data], w0⟩)
        else if wr.headI = 0x4B then
          match read_nvitemsub nvl item index
              ⟨rest, sent0 ++ [nv_sub_write_req item index data], w0⟩ with
          | (.ok (.success nv), st2) =>
              ((if nv.data = data then .ok (some true) else .ok (some false)), st2)
          | (.ok (.failure _), st2) => (.ok (some false), st2)
          | (.error e, st2) => (.error e, st2)
        else (.ok none, ⟨rest, sent0 ++ [nv_sub_write_req item index data], w0⟩)
    := by
  rcases pending with _ | ⟨wr, rest⟩
  · rfl
  · rcases wr with _ | ⟨b, bs⟩
    · rfl
    · by_cases hb : b = 0x4B
      · subst hb
        simp only [write_nvitemsub, bind_apply, dsend]
        simp only [List.length_cons, gt_iff_lt, Nat.succ_pos, if_true, List.headI, if_pos rfl,
          Nat.succ_ne_zero, if_false]
        rcases hrd : read_nvitemsub nvl item index
            ⟨rest, sent0 ++ [nv_sub_write_req item index data], w0⟩ with ⟨r, st2⟩
        rw [bind_apply, hrd]
        rcases r with e | nv | m
        · simp
        · by_cases hd : nv.data = data
          · simp [hd, pure_apply]
          · simp [hd, pure_apply]
        · simp [pure_apply]
      · simp only [write_nvitemsub, bind_apply, dsend]
        simp [List.headI, hb, pure_apply]

/-- read_nvitem only appends copies of its own request to the trace and
leaves the output file alone. -/
theorem read_nvitem_sent (nvl : Nat → Option String) (item : Nat) (st : DiagSt) :
    ∃ l, (read_nvitem nvl item st).2.sent = st.sent ++ l ∧
      (∀ r ∈ l, r = nv_read_req item) ∧ nv_read_req item ∈ l ∧
      (read_nvitem nvl item st).2.written = st.written := by
  obtain ⟨pending, sent0, w0⟩ := st
  rcases pending with _ | ⟨r1, rest1⟩
  · rw [read_nvitem_run]
    exact ⟨[nv_read_req item, nv_read_req item], rfl, by simp, by simp, rfl⟩
  · rw [read_nvitem_run]
    dsimp only
    by_cases h1 : r1.length = 0
    · rw [if_pos h1]
      rcases rest1 with _ | ⟨r2, rest2⟩
      · exact ⟨[nv_read_req item, nv_read_req item], rfl, by simp, by simp, rfl⟩
      · exact ⟨[nv_read_req item, nv_read_req item], rfl, by simp, by simp, rfl⟩
    · rw [if_neg h1]
      exact ⟨[nv_read_req item], rfl, by simp, by simp, rfl⟩

/-- read_nvitemsub only appends copies of its own request to the trace. -/
theorem read_nvitemsub_sent (nvl : Nat → Option String) (item index : Nat) (st : DiagSt) :
    ∃ l, (read_nvitemsub nvl item index st).2.sent = st.sent ++ l ∧
      (∀ r ∈ l, r = nv_sub_read_req item index) ∧
      (read_nvitemsub nvl item index st).2.written = st.written := by
  obtain ⟨pending, sent0, w0⟩ := st
  rcases pending with _ | ⟨r1, rest1⟩
  · rw [read_nvitemsub_run]
    exact ⟨[nv_sub_read_req item index, nv_sub_read_req item index], rfl, by simp, rfl⟩
  · rw [read_nvitemsub_run]
    dsimp only
    by_cases h1 : r1.length = 0
    · rw [if_pos h1]
      rcases rest1 with _ | ⟨r2, rest2⟩
      · exact ⟨[nv_sub_read_req item index, nv_sub_read_req item index], rfl, by simp, rfl⟩
      · exact ⟨[nv_sub_read_req item index, nv_sub_read_req item index], rfl, by simp, rfl⟩
    · rw [if_neg h1]
      exact ⟨[nv_sub_read_req item index], rfl, by simp, rfl⟩

/-- write_nvitem sends its write request first and at most read requests
after it, and leaves the output file alone. -/
theorem write_nvitem_sent (nvl : Nat → Option String) (item : Nat) (data : Bytes)
    (st : DiagSt) :
    ∃ l, (write_nvitem nvl item data st).2.sent = st.sent ++ nv_write_req item data :: l ∧
      (∀ r ∈ l, r = nv_read_req item) ∧
      (write_nvitem nvl item data st).2.written = st.written := by
  obtain ⟨pending, sent0, w0⟩ := st
  rcases pending with _ | ⟨wr, rest⟩
  · rw [write_nvitem_run]
    exact ⟨[], by simp, by simp, rfl⟩
  · rw [write_nvitem_run]
    dsimp only
    by_cases h1 : wr.length = 0
    · rw [if_pos h1]
      exact ⟨[], by simp, by simp, rfl⟩
    · rw [if_neg h1]
      by_cases hh : wr.headI = 0x27
      · rw [if_pos hh]
        obtain ⟨lr, hsent, hall, _, hw⟩ :=
          read_nvitem_sent nvl item ⟨rest, sent0 ++ [nv_write_req item data], w0⟩
        rcases hrd : read_nvitem nvl item ⟨rest, sent0 ++ [nv_write_req item data], w0⟩
          with ⟨r, st2⟩
        rw [hrd] at hsent hw
        dsimp only at hsent hw
        refine ⟨lr, ?_, hall, ?_⟩
        · rcases r with e | nv | m
          · simp [hsent]
          · by_cases hd : nv.data = data <;> simp [hd, hsent]
          · simp [hsent]
        · rcases r with e | nv | m
          · simpa using hw
          · by_cases hd : nv.data = data <;> simp [hd, hw]
          · simpa using hw
      · rw [if_neg hh]
        exact ⟨[], by simp, by simp, rfl⟩

/-- write_nvitemsub sends its sub-item write request first and at most
sub-item read requests after it. -/
theorem write_nvitemsub_sent (nvl : Nat → Option String) (item index : Nat) (data : Bytes)
    (st : DiagSt) :
    ∃ l, (write_nvitemsub nvl item index data st).2.sent =
        st.sent ++ nv_sub_write_req item index data :: l ∧
      (∀ r ∈ l, r = nv_sub_read_req item index) ∧
      (write_nvitemsub nvl item index data st).2.written = st.written := by
  obtain ⟨pending, sent0, w0⟩ := st
  rcases pending with _ | ⟨wr, rest⟩
  · rw [write_nvitemsub_run]
    exact ⟨[], by simp, by simp, rfl⟩
  · rw [write_nvitemsub_run]
    dsimp only
    by_cases h1 : wr.length = 0
    · rw [if_pos h1]
      exact ⟨[], by simp, by simp, rfl⟩
    · rw [if_neg h1]
      by_cases hh : wr.headI = 0x4B
      · rw [if_pos hh]
        obtain ⟨lr, hsent, hall, hw⟩ := read_nvitemsub_sent nvl item index
          ⟨rest, sent0 ++ [nv_sub_write_req item index data], w0⟩
        rcases hrd : read_nvitemsub nvl item index
            ⟨rest, sent0 ++ [nv_sub_write_req item index data], w0⟩ with ⟨r, st2⟩
        rw [hrd] at hsent hw
        dsimp only at hsent hw
        refine ⟨lr, ?_, hall, ?_⟩
        · rcases r with e | nv | m
          · simp [hsent]
          · by_cases hd : nv.data = data <;> simp [hd, hsent]
          · simp [hsent]
        · rcases r with e | nv | m
          · simpa using hw
          · by_cases hd : nv.data = data <;> simp [hd, hw]
          · simpa using hw
      · rw [if_neg hh]
        exact ⟨[], by simp, by simp, rfl⟩

/-- How write_imei unfolds on the single IMEI 490154203237518: the flat
write of item 550 runs first, and the sub-item write at index 0 runs exactly
when the flat write did not return True. -/
theorem write_imei_go_single (nvl : Nat → Option String) (st : DiagSt) :
    write_imei_go nvl ["490154203237518"] 0 st =
      match write_nvitem nvl 550 imeiTestBytes st with
      | (.ok v, st1) =>
          if v ≠ some true then
            match write_nvitemsub nvl 550 0 imeiTestBytes st1 with
            | (.ok _, st2) => (.ok (), st2)
            | (.error e, st2) => (.error e, st2)
          else (.ok (), st1)
      | (.error e, st1) => (.error e, st1) := by
  have hconv : convertimei "490154203237518" = .ok imeiTestBytes := by decide
  show (write_imei_go nvl ["490154203237518"] 0) st = _
  simp only [write_imei_go, bind_apply, liftE, hconv, eq_self_iff_true, if_true]
  rcases hw : write_nvitem nvl 550 imeiTestBytes st with ⟨r, st1⟩
  rcases r with e | v
  · rfl
  · by_cases hv : v = some true
    · subst hv
      simp [write_imei_go, pure_apply]
    · simp only [ne_eq, hv, not_false_eq_true, if_true]
      rcases hws : write_nvitemsub nvl 550 0 imeiTestBytes st1 with ⟨r2, st2⟩
      rw [bind_apply, hws]
      rcases r2 with e2 | u
      · rfl
      · simp [write_imei_go, pure_apply]

theorem unpack8_of_len (bs : Bytes) (h : bs.length = 1) : ∃ n, unpack8 bs = .ok n := by
  rcases bs with _ | ⟨a, bs⟩
  · simp at h
  · rcases bs with _ | ⟨b, bs⟩
    · exact ⟨a, rfl⟩
    · simp at h

theorem unpack32_of_len (bs : Bytes) (h : bs.length = 4) : ∃ n, unpack32 bs = .ok n := by
  rcases bs with _ | ⟨a, bs⟩
  · simp at h
  rcases bs with _ | ⟨b, bs⟩
  · simp at h
  rcases bs with _ | ⟨c, bs⟩
  · simp at h
  rcases bs with _ | ⟨d, bs⟩
  · simp at h
  rcases bs with _ | ⟨e, bs⟩
  · exact ⟨rd32 a b c d, rfl⟩
  · simp at h

theorem unpack16_of_len (bs : Bytes) (h : bs.length = 2) : ∃ n, unpack16 bs = .ok n := by
  rcases bs with _ | ⟨a, bs⟩
  · simp at h
  · rcases bs with _ | ⟨b, bs⟩
    · simp at h
    · rcases bs with _ | ⟨c, bs⟩
      · exact ⟨rd16 a b, rfl⟩
      · simp at h

theorem pySlice_length (l : Bytes) (a b : Nat) :
    (pySlice l a b).length = min b l.length - a := by
  simp [pySlice]

/-- FactImageReadInfo.from_data applies whenever 8 bytes are present. -/
theorem factInfoFromData_ok (d : Bytes) (h : 8 ≤ d.length) :
    ∃ f, factInfoFromData d = .ok f := by
  have hd : (pySlice d 0 0x10).length = min 16 d.length := by
    rw [pySlice_length]
    omega
  have l1 : (pySlice (pySlice d 0 0x10) 0 1).length = 1 := by
    rw [pySlice_length, hd]
    omega
  have l2 : (pySlice (pySlice d 0 0x10) 1 2).length = 1 := by
    rw [pySlice_length, hd]
    omega
  have l3 : (pySlice (pySlice d 0 0x10) 2 4).length = 2 := by
    rw [pySlice_length, hd]
    omega
  have l4 : (pySlice (pySlice d 0 0x10) 4 8).length = 4 := by
    rw [pySlice_length, hd]
    omega
  obtain ⟨n1, h1⟩ := unpack8_of_len _ l1
  obtain ⟨n2, h2⟩ := unpack8_of_len _ l2
  obtain ⟨n3, h3⟩ := unpack16_of_len _ l3
  obtain ⟨n4, h4⟩ := unpack32_of_len _ l4
  refine ⟨⟨n1, n2, n3, n4⟩, ?_⟩
  simp only [factInfoFromData, h1, h2, h3, h4]
  rfl

/-- FactoryHeader.from_data applies whenever 156 bytes are present. -/
theorem factoryHeaderFromData_ok (d : Bytes) (h : 156 ≤ d.length) :
    ∃ fh, factoryHeaderFromData d = .ok fh := by
  have hd : (pySlice d 0 0x9C).length = min 156 d.length := by
    rw [pySlice_length]
    omega
  have l1 : (pySlice (pySlice d 0 0x9C) 0 4).length = 4 := by
    rw [pySlice_length, hd]
    omega
  have l2 : (pySlice (pySlice d 0 0x9C) 4 8).length = 4 := by
    rw [pySlice_length, hd]
    omega
  have l3 : (pySlice (pySlice d 0 0x9C) 8 10).length = 2 := by
    rw [pySlice_length, hd]
    omega
  have l4 : (pySlice (pySlice d 0 0x9C) 10 12).length = 2 := by
    rw [pySlice_length, hd]
    omega
  have l5 : (pySlice (pySlice d 0 0x9C) 12 16).length = 4 := by
    rw [pySlice_length, hd]
    omega
  have l6 : (pySlice (pySlice d 0 0x9C) 16 20).length = 4 := by
    rw [pySlice_length, hd]
    omega
  have l7 : (pySlice (pySlice d 0 0x9C) 20 24).length = 4 := by
    rw [pySlice_length, hd]
    omega
  have l8 : (pySlice (pySlice d 0 0x9C) 24 28).length = 4 := by
    rw [pySlice_length, hd]
    omega
  have l9 : (pySlice (pySlice d 0 0x9C) 28 156).length = 128 := by
    rw [pySlice_length, hd]
    omega
  obtain ⟨n1, h1⟩ := unpack32_of_len _ l1
  obtain ⟨n2, h2⟩ := unpack32_of_len _ l2
  obtain ⟨n3, h3⟩ := unpack16_of_len _ l3
  obtain ⟨n4, h4⟩ := unpack16_of_len _ l4
  obtain ⟨n5, h5⟩ := unpack32_of_len _ l5
  obtain ⟨n6, h6⟩ := unpack32_of_len _ l6
  obtain ⟨n7, h7⟩ := unpack32_of_len _ l7
  obtain ⟨n8, h8⟩ := unpack32_of_len _ l8
  refine ⟨⟨n1, n2, n3, n4, n5, n6, n7, n8, decodeU32s (pySlice (pySlice d 0 0x9C) 28 156)⟩, ?_⟩
  simp only [factoryHeaderFromData, h1, h2, h3, h4, h5, h6, h7, h8, unpackU32x32, l9,
    if_pos]
  rfl

theorem unpackRaw128_of_len (bs : Bytes) (h : bs.length = 128) :
    ∃ l, unpackRaw128 bs = .ok l := ⟨bs, by simp [unpackRaw128, h]⟩

/-- The nvitem_type decode applies whenever the 132-byte fixed layout is
present. -/
theorem decodeNvitem_ok (d : Bytes) (h : 132 ≤ d.length) : ∃ t, decodeNvitem d = .ok t := by
  have l1 : (pySlice d 0 2).length = 2 := by
    simp only [pySlice, List.length_drop, List.length_take]
    omega
  have l2 : (pySlice d 2 130).length = 128 := by
    simp only [pySlice, List.length_drop, List.length_take]
    omega
  have l3 : (pySlice d 130 132).length = 2 := by
    simp only [pySlice, List.length_drop, List.length_take]
    omega
  obtain ⟨n1, h1⟩ := unpack16_of_len _ l1
  obtain ⟨raw, h2⟩ := unpackRaw128_of_len _ l2
  obtain ⟨n2, h3⟩ := unpack16_of_len _ l3
  refine ⟨(n1, raw, n2), ?_⟩
  simp only [decodeNvitem, h1, h2, h3]
  rfl

/-- read_nvitem_result is never an exception when any 0x26-led response has
the full fixed-width layout. -/
theorem read_nvitem_result_ok (nvl : Nat → Option String) (item : Nat) (d : Bytes)
    (h : d.headI = 0x26 → 133 ≤ d.length) :
    ∃ res, read_nvitem_result nvl item d = .ok res := by
  rcases d with _ | ⟨b, bs⟩
  · exact ⟨.failure ("Empty request for nvitem " ++ pyHex item), rfl⟩
  · by_cases hb : b = 0x26
    · subst hb
      have hlen : 132 ≤ bs.length := by
        have := h (by rfl)
        simp only [List.length_cons] at this
        omega
      obtain ⟨t, ht⟩ := decodeNvitem_ok bs hlen
      refine ⟨.success ⟨t.1, 0, unpackdata t.2.1, t.2.2, (nvl item).getD ""⟩, ?_⟩
      simp only [read_nvitem_result, List.length_cons, gt_iff_lt, Nat.succ_pos, if_true,
        List.headI, if_pos rfl]
      rw [show (0x26 :: bs).drop 1 = bs from rfl, ht]
    · by_cases hb14 : b = 0x14
      · subst hb14
        exact ⟨.failure ("Error 0x14 trying to read nvitem " ++ pyHex item ++ "."), by
          simp [read_nvitem_result, List.headI]⟩
      · exact ⟨.failure ("Error " ++ pyHex (b :: bs).headI ++ " trying to read nvitem " ++
          pyHex item ++ "."), by simp [read_nvitem_result, List.headI, hb, hb14]⟩

/-- Under a well-formed script a read_nvitem run returns without exception
and consumes one or two responses from the front. -/
theorem read_nvitem_ok (nvl : Nat → Option String) (item : Nat) (st : DiagSt)
    (hwf : ∀ r ∈ st.pending, r.headI = 0x26 → 133 ≤ r.length) :
    ∃ res, (read_nvitem nvl item st).1 = .ok res ∧
      ((read_nvitem nvl item st).2.pending = st.pending.drop 1 ∨
       (read_nvitem nvl item st).2.pending = st.pending.drop 2) := by
  obtain ⟨pending, sent0, w0⟩ := st
  rcases pending with _ | ⟨r1, rest1⟩
  · rw [read_nvitem_run]
    obtain ⟨res, hres⟩ := read_nvitem_result_ok nvl item []
      (fun h26 => absurd h26 (by decide))
    exact ⟨res, hres, Or.inl rfl⟩
  · rw [read_nvitem_run]
    dsimp only
    by_cases h1 : r1.length = 0
    · rw [if_pos h1]
      rcases rest1 with _ | ⟨r2, rest2⟩
      · obtain ⟨res, hres⟩ := read_nvitem_result_ok nvl item []
          (fun h26 => absurd h26 (by decide))
        exact ⟨res, hres, Or.inr rfl⟩
      · obtain ⟨res, hres⟩ := read_nvitem_result_ok nvl item r2
          (hwf r2 (by simp))
        exact ⟨res, hres, Or.inr rfl⟩
    · rw [if_neg h1]
      obtain ⟨res, hres⟩ := read_nvitem_result_ok nvl item r1 (hwf r1 (by simp))
      exact ⟨res, hres, Or.inl rfl⟩

/-- Two NV read requests coincide exactly when their item ids agree modulo
the 16-bit field width. -/
theorem nv_read_req_inj (i j : Nat) : nv_read_req i = nv_read_req j ↔ i % 65536 = j % 65536 := by
  constructor
  · intro h
    simp only [nv_read_req, packNvitem, le16, List.cons.injEq, List.cons_append,
      List.append_cancel_right_eq] at h
    omega
  · intro h
    have h1 : i % 256 = j % 256 := by omega
    have h2 : i / 256 % 256 = j / 256 % 256 := by omega
    simp [nv_read_req, packNvitem, le16, h1, h2]

/-- The backup scan loop, under a well-formed script: it never raises, and
its request trace consists of read requests exactly for the listed ids. -/
theorem backup_loop_ok (nvl : Nat → Option String) :
    ∀ (items : List Nat) (acc : List NvBackupEntry) (errs : String) (st : DiagSt),
      (∀ r ∈ st.pending, r.headI = 0x26 → 133 ≤ r.length) →
      ∃ out stout, backup_loop nvl items acc errs st = (.ok out, stout) ∧
        ∃ l, stout.sent = st.sent ++ l ∧
          (∀ r ∈ l, ∃ i ∈ items, r = nv_read_req i) ∧
          (∀ i ∈ items, nv_read_req i ∈ l) := by
  intro items
  induction items with
  | nil =>
    intro acc errs st hwf
    exact ⟨(acc, errs), st, rfl, [], by simp, by simp, by simp⟩
  | cons item rest ih =>
    intro acc errs st hwf
    obtain ⟨res, hres, hpend⟩ := read_nvitem_ok nvl item st hwf
    obtain ⟨lr, hsent, hallr, hmem, _⟩ := read_nvitem_sent nvl item st
    rcases hr : read_nvitem nvl item st with ⟨r, st1⟩
    rw [hr] at hres hpend hsent
    dsimp only at hres hpend hsent
    subst hres
    have hwf1 : ∀ r' ∈ st1.pending, r'.headI = 0x26 → 133 ≤ r'.length := by
      intro r' hr' h26
      rcases hpend with h | h
      · exact hwf r' (List.mem_of_mem_drop (h ▸ hr')) h26
      · exact hwf r' (List.mem_of_mem_drop (h ▸ hr')) h26
    have hstep : ∀ acc' errs',
        (∃ out stout, backup_loop nvl rest acc' errs' st1 = (.ok out, stout) ∧
          ∃ l, stout.sent = st1.sent ++ l ∧
            (∀ r' ∈ l, ∃ i ∈ rest, r' = nv_read_req i) ∧
            (∀ i ∈ rest, nv_read_req i ∈ l)) →
        ∃ out stout, backup_loop nvl rest acc' errs' st1 = (.ok out, stout) ∧
          ∃ l, stout.sent = st.sent ++ l ∧
            (∀ r' ∈ l, ∃ i ∈ item :: rest, r' = nv_read_req i) ∧
            (∀ i ∈ item :: rest, nv_read_req i ∈ l) := by
      intro acc'  errs' ⟨out, stout, hloop, l', hsent', hall', hmem'⟩
      refine ⟨out, stout, hloop, lr ++ l', ?_, ?_, ?_⟩
      · rw [hsent', hsent, List.append_assoc]
      · intro r' hr'
        rcases List.mem_append.mp hr' with h | h
        · exact ⟨item, by simp, hallr r' h⟩
        · obtain ⟨i, hi, hri⟩ := hall' r' h
          exact ⟨i, by simp [hi], hri⟩
      · intro i hi
        rcases List.mem_cons.mp hi with h | h
        · subst h
          exact List.mem_append_left _ hmem
        · exact List.mem_append_right _ (hmem' i h)
    have hgoal : backup_loop nvl (item :: rest) acc errs st =
        match ((Except.ok res : Except PyErr NvRes), st1) with
        | (.ok (.success nv), st') =>
            if nv.status ≠ 5 then backup_loop nvl rest (acc ++ [entryOfNv nv]) errs st'
            else backup_loop nvl rest acc errs st'
        | (.ok (.failure m), st') => backup_loop nvl rest acc (errs ++ m ++ "\n") st'
        | (.error e, st') => (.error e, st') := by
      show (backup_loop nvl (item :: rest) acc errs) st = _
      simp only [backup_loop, bind_apply, hr]
      rcases res with nv | m
      · by_cases hs : nv.status = 5
        · simp [hs]
        · simp [hs]
      · rfl
    rcases res with nv | m
    · by_cases hs : nv.status = 5
      · rw [hgoal]
        simp only [hs, ne_eq, not_true_eq_false, if_false]
        exact hstep acc errs (ih acc errs st1 hwf1)
      · rw [hgoal]
        simp only [ne_eq, hs, not_false_eq_true, if_true]
        exact hstep (acc ++ [entryOfNv nv]) errs (ih (acc ++ [entryOfNv nv]) errs st1 hwf1)
    · rw [hgoal]
      exact hstep acc (errs ++ m ++ "\n") (ih acc (errs ++ m ++ "\n") st1 hwf1)

/-- The factory-image page loop never raises, and every request it sends is
a page-read request built from some cursor value. -/
theorem efsread_loop_ok (m : Nat) :
    ∀ (n : Nat) (fefs : FactImageReadInfo) (err : Bool) (st : DiagSt),
      ∃ out st', efsread_loop m fefs err n st = (.ok out, st') ∧
        ∃ l, st'.sent = st.sent ++ l ∧ ∀ q ∈ l, ∃ f, q = fact_image_read_req m f := by
  intro n
  induction n with
  | zero =>
    intro fefs err st
    exact ⟨(fefs, err), st, rfl, [], by simp, by simp⟩
  | succ n ih =>
    intro fefs err st
    obtain ⟨pending, sent0, w0⟩ := st
    rcases pending with _ | ⟨r, rest⟩
    · have hstep : efsread_loop m fefs err (n + 1) ⟨[], sent0, w0⟩ =
          efsread_loop m fefs err n ⟨[], sent0 ++ [fact_image_read_req m fefs], w0⟩ := by
        simp [efsread_loop, bind_apply, dsend]
      obtain ⟨out, st', hloop, l', hsent, hall⟩ :=
        ih fefs err ⟨[], sent0 ++ [fact_image_read_req m fefs], w0⟩
      refine ⟨out, st', by rw [hstep, hloop], fact_image_read_req m fefs :: l', ?_, ?_⟩
      · rw [hsent]
        simp
      · intro q hq
        rcases List.mem_cons.mp hq with h | h
        · exact ⟨fefs, h⟩
        · exact hall q h
    · by_cases hdl : ((r.length : Int) - 0x11 = 0x200 ∨ (r.length : Int) - 0x11 = 0x800)
      · have hlen : r.length = 529 ∨ r.length = 2065 := by
          rcases hdl with h | h
          · left
            omega
          · right
            omega
        rcases r with _ | ⟨b0, rb⟩
        · simp at hlen
        · by_cases hb0 : b0 = 0x4B
          · subst hb0
            obtain ⟨f1, hf1⟩ := factInfoFromData_ok (pySlice (0x4B :: rb) 0x8 0x10) (by
              rw [pySlice_length]
              simp only [List.length_cons] at hlen ⊢
              omega)
            have hdlA : ((rb.length : Int) + 1 - 17 = 512 ∨ (rb.length : Int) + 1 - 17 = 2048) := by
              simpa using hdl
            have hstep : efsread_loop m fefs err (n + 1) ⟨(0x4B :: rb) :: rest, sent0, w0⟩ =
                efsread_loop m f1 err n
                  ⟨rest, sent0 ++ [fact_image_read_req m fefs],
                   w0 ++ pySlice (0x4B :: rb) 0x10
                     (0x10 + (((rb.length : Int) + 1 - 17).toNat))⟩ := by
              simp [efsread_loop, bind_apply, dsend, hdlA, pyIndex, liftE, fwrite, hf1]
            obtain ⟨out, st', hloop, l', hsent, hall⟩ := ih f1 err
              ⟨rest, sent0 ++ [fact_image_read_req m fefs],
               w0 ++ pySlice (0x4B :: rb) 0x10
                 (0x10 + (((rb.length : Int) + 1 - 17).toNat))⟩
            refine ⟨out, st', by rw [hstep, hloop], fact_image_read_req m fefs :: l', ?_, ?_⟩
            · rw [hsent]
              simp
            · intro q hq
              rcases List.mem_cons.mp hq with h | h
              · exact ⟨fefs, h⟩
              · exact hall q h
          · by_cases hb13 : b0 = 0x13
            · subst hb13
              rcases rb with _ | ⟨b1, rb2⟩
              · simp at hlen
              · by_cases hb162 : b1 = 0x62
                · subst hb162
                  obtain ⟨f1, hf1⟩ := factInfoFromData_ok
                    (pySlice (0x13 :: 0x62 :: rb2) 0xC 0x14) (by
                      rw [pySlice_length]
                      simp only [List.length_cons] at hlen ⊢
                      omega)
                  have hdlB : ((rb2.length : Int) + 1 + 1 - 17 = 512 ∨
                      (rb2.length : Int) + 1 + 1 - 17 = 2048) := by
                    simpa using hdl
                  have hgt : 512 < rb2.length + 1 + 1 := by
                    simp only [List.length_cons] at hlen
                    omega
                  by_cases hss : f1.stream_state = 0
                  · refine ⟨(f1, err),
                      ⟨rest, sent0 ++ [fact_image_read_req m fefs],
                       w0 ++ pySliceNeg (0x13 :: 0x62 :: rb2) 0x14 4⟩, ?_,
                      [fact_image_read_req m fefs], by simp, ?_⟩
                    · simp [efsread_loop, bind_apply, dsend, hdlB, pyIndex, liftE, fwrite,
                        hf1, hgt, hss, pure_apply]
                    · intro q hq
                      rcases List.mem_cons.mp hq with h | h
                      · exact ⟨fefs, h⟩
                      · simp at h
                  · have hstep : efsread_loop m fefs err (n + 1)
                        ⟨(0x13 :: 0x62 :: rb2) :: rest, sent0, w0⟩ =
                        efsread_loop m f1 err n
                          ⟨rest, sent0 ++ [fact_image_read_req m fefs],
                           w0 ++ pySliceNeg (0x13 :: 0x62 :: rb2) 0x14 4⟩ := by
                      simp [efsread_loop, bind_apply, dsend, hdlB, pyIndex, liftE, fwrite,
                        hf1, hgt, hss]
                    obtain ⟨out, st', hloop, l', hsent, hall⟩ := ih f1 err
                      ⟨rest, sent0 ++ [fact_image_read_req m fefs],
                       w0 ++ pySliceNeg (0x13 :: 0x62 :: rb2) 0x14 4⟩
                    refine ⟨out, st', by rw [hstep, hloop],
                      fact_image_read_req m fefs :: l', ?_, ?_⟩
                    · rw [hsent]
                      simp
                    · intro q hq
                      rcases List.mem_cons.mp hq with h | h
                      · exact ⟨fefs, h⟩
                      · exact hall q h
                · have hdlB : ((rb2.length : Int) + 1 + 1 - 17 = 512 ∨
                      (rb2.length : Int) + 1 + 1 - 17 = 2048) := by
                    simpa using hdl
                  refine ⟨(fefs, true),
                    ⟨rest, sent0 ++ [fact_image_read_req m fefs], w0⟩, ?_,
                    [fact_image_read_req m fefs], by simp, ?_⟩
                  · simp [efsread_loop, bind_apply, dsend, hdlB, pyIndex, liftE, hb162,
                    pure_apply]
                  · intro q hq
                    rcases List.mem_cons.mp hq with h | h
                    · exact ⟨fefs, h⟩
                    · simp at h
            · rcases rb with _ | ⟨b1, rb2⟩
              · simp at hlen
              · have hdlB : ((rb2.length : Int) + 1 + 1 - 17 = 512 ∨
                    (rb2.length : Int) + 1 + 1 - 17 = 2048) := by
                  simpa using hdl
                refine ⟨(fefs, true),
                  ⟨rest, sent0 ++ [fact_image_read_req m fefs], w0⟩, ?_,
                  [fact_image_read_req m fefs], by simp, ?_⟩
                · simp [efsread_loop, bind_apply, dsend, hdlB, pyIndex, liftE, hb0, hb13,
                    pure_apply]
                · intro q hq
                  rcases List.mem_cons.mp hq with h | h
                  · exact ⟨fefs, h⟩
                  · simp at h
      · have hstep : efsread_loop m fefs err (n + 1) ⟨r :: rest, sent0, w0⟩ =
            efsread_loop m fefs err n ⟨rest, sent0 ++ [fact_image_read_req m fefs], w0⟩ := by
          simp [efsread_loop, bind_apply, dsend, hdl]
        obtain ⟨out, st', hloop, l', hsent, hall⟩ :=
          ih fefs err ⟨rest, sent0 ++ [fact_image_read_req m fefs], w0⟩
        refine ⟨out, st', by rw [hstep, hloop], fact_image_read_req m fefs :: l', ?_, ?_⟩
        · rw [hsent]
          simp
        · intro q hq
          rcases List.mem_cons.mp hq with h | h
          · exact ⟨fefs, h⟩
          · exact hall q h

/-- One send always logs its request and pops the script. -/
theorem dsend_state (req : Bytes) (st : DiagSt) :
    ∃ resp, dsend req st =
      (.ok resp, ⟨st.pending.drop 1, st.sent ++ [req], st.written⟩) := by
  obtain ⟨pending, sent0, w0⟩ := st
  rcases pending with _ | ⟨r, rest⟩
  · exact ⟨[], rfl⟩
  · exact ⟨r, rfl⟩

/-- How the shared EFS method probe unfolds over any script. -/
theorem efs_probe_run (alt std : Bytes) (pending sent0 : List Bytes) (w0 : Bytes) :
    efs_probe alt std ⟨pending, sent0, w0⟩ =
      match pending with
      | [] => (.error .indexError, ⟨[], sent0 ++ [alt], w0⟩)
      | r1 :: rest1 =>
        match r1 with
        | [] => (.error .indexError, ⟨rest1, sent0 ++ [alt], w0⟩)
        | b :: _ =>
          if b = 0x4B then (.ok (some 0x3E), ⟨rest1, sent0 ++ [alt], w0⟩)
          else
            match rest1 with
            | [] => (.error .indexError, ⟨[], sent0 ++ [alt, std], w0⟩)
            | r2 :: rest2 =>
              match r2 with
              | [] => (.error .indexError, ⟨rest2, sent0 ++ [alt, std], w0⟩)
              | c :: _ =>
                if c = 0x4B then (.ok (some 0x13), ⟨rest2, sent0 ++ [alt, std], w0⟩)
                else (.ok none, ⟨rest2, sent0 ++ [alt, std], w0⟩) := by
  rcases pending with _ | ⟨r1, rest1⟩
  · rfl
  · rcases r1 with _ | ⟨b, bs⟩
    · rfl
    · by_cases hb : b = 0x4B
      · subst hb
        rfl
      · rcases rest1 with _ | ⟨r2, rest2⟩
        · simp [efs_probe, bind_apply, dsend, pyIndex, liftE, hb, pure_apply]
        · rcases r2 with _ | ⟨c, cs⟩
          · simp [efs_probe, bind_apply, dsend, pyIndex, liftE, hb, pure_apply]
          · by_cases hc : c = 0x4B
            · simp [efs_probe, bind_apply, dsend, pyIndex, liftE, hb, hc, pure_apply]
            · simp [efs_probe, bind_apply, dsend, pyIndex, liftE, hb, hc, pure_apply]

/-- efsread is the probe followed by the export body. -/
theorem efsread_split (fn : String) (st : DiagSt) :
    efsread fn st =
      match efs_probe alternateefs_fact standardefs_fact st with
      | (.ok none, st1) => (.ok none, st1)
      | (.ok (some m), st1) => efsread_body m fn st1
      | (.error e, st1) => (.error e, st1) := by
  rcases hp : efs_probe alternateefs_fact standardefs_fact st with ⟨r, st1⟩
  show (efsread fn) st = _
  simp only [efsread, bind_apply, hp]
  rcases r with e | o
  · rfl
  · rcases o with _ | m
    · rfl
    · rfl

/-- Every request the export body sends is a subsystem request carrying the
selected method byte at offset 1. -/
theorem efsread_body_sent (m : Nat) (fn : String) (st : DiagSt) :
    ∃ l, (efsread_body m fn st).2.sent = st.sent ++ l ∧
      ∀ q ∈ l, q.headI = 0x4B ∧ q.get? 1 = some (m % 256) := by
  obtain ⟨pending, sent0, w0⟩ := st
  by_cases hfn : fn = ""
  · refine ⟨[], ?_, by simp⟩
    simp [efsread_body, hfn, pure_apply]
  · have hq1 : ∀ q ∈ [efs_req m EFS2_DIAG_PREP_FACT_IMAGE],
        q.headI = 0x4B ∧ q.get? 1 = some (m % 256) := by
      intro q hq
      rcases List.mem_singleton.mp hq with h
      subst h
      exact ⟨rfl, rfl⟩
    have hq3 : ∀ q ∈ [efs_req m EFS2_DIAG_PREP_FACT_IMAGE,
        efs_req m EFS2_DIAG_FACT_IMAGE_START,
        fact_image_read_req m ⟨0, 0, 0, 0⟩],
        q.headI = 0x4B ∧ q.get? 1 = some (m % 256) := by
      intro q hq
      simp only [List.mem_cons, List.not_mem_nil, or_false] at hq
      rcases hq with h | h | h
      · subst h
        exact ⟨rfl, rfl⟩
      · subst h
        exact ⟨rfl, rfl⟩
      · subst h
        exact ⟨rfl, rfl⟩
    obtain ⟨resp1, hd1⟩ :=
      dsend_state (efs_req m EFS2_DIAG_PREP_FACT_IMAGE) ⟨pending, sent0, w0⟩
    have hbody : efsread_body m fn ⟨pending, sent0, w0⟩ = (do
        let resp1 ← dsend (efs_req m EFS2_DIAG_PREP_FACT_IMAGE)
        if resp1.length = 0 then pure (some false)
        else do
          let _ ← dsend (efs_req m EFS2_DIAG_FACT_IMAGE_START)
          let fefs0 : FactImageReadInfo := ⟨0, 0, 0, 0⟩
          let resp ← dsend (fact_image_read_req m fefs0)
          let error ← liftE (unpack32 (pySlice resp 4 8))
          let b0 ← liftE (pyIndex resp 0)
          if b0 = 0x13 ∨ b0 = 0x14 ∨ b0 = 0x15 ∨ error ≠ 0 then pure (some false)
          else if b0 = 0x47 then pure (some false)
          else do
            let hdr ← if 0 < resp.length then do
                fwrite (pySliceNeg resp 0x10 0x1)
                let fefs1 ← liftE (factInfoFromData (pySlice resp 0x8 0x10))
                let fh ← liftE (factoryHeaderFromData (pySlice resp 0x10 (0x10 + 39 * 4)))
                pure (fefs1, fh)
              else pure (fefs0, factoryHeaderInit)
            let total := hdr.2.block_size * hdr.2.block_count * (hdr.2.page_size / 0x200)
            let lres ← efsread_loop m hdr.1 false total
            let respEnd ← dsend (efs_req m EFS2_DIAG_FACT_IMAGE_END)
            if respEnd.length = 0 then pure (some false)
            else if lres.2 = false then pure (some true)
            else pure (some false) : DiagM (Option Bool)) ⟨pending, sent0, w0⟩ := by
      simp [efsread_body, hfn]
    rw [hbody, bind_apply, hd1]
    dsimp only
    by_cases hr1 : resp1.length = 0
    · rw [if_pos hr1]
      exact ⟨[efs_req m EFS2_DIAG_PREP_FACT_IMAGE], rfl, hq1⟩
    · rw [if_neg hr1]
      obtain ⟨resp2, hd2⟩ := dsend_state (efs_req m EFS2_DIAG_FACT_IMAGE_START)
        ⟨pending.drop 1, sent0 ++ [efs_req m EFS2_DIAG_PREP_FACT_IMAGE], w0⟩
      rw [bind_apply, hd2]
      dsimp only
      obtain ⟨resp3, hd3⟩ := dsend_state (fact_image_read_req m ⟨0, 0, 0, 0⟩)
        ⟨(pending.drop 1).drop 1,
         (sent0 ++ [efs_req m EFS2_DIAG_PREP_FACT_IMAGE]) ++
           [efs_req m EFS2_DIAG_FACT_IMAGE_START], w0⟩
      rw [bind_apply, hd3]
      dsimp only
      set sent3 := ((sent0 ++ [efs_req m EFS2_DIAG_PREP_FACT_IMAGE]) ++
        [efs_req m EFS2_DIAG_FACT_IMAGE_START]) ++ [fact_image_read_req m ⟨0, 0, 0, 0⟩]
        with hsent3
      have hsent3' : sent3 = sent0 ++ [efs_req m EFS2_DIAG_PREP_FACT_IMAGE,
          efs_req m EFS2_DIAG_FACT_IMAGE_START, fact_image_read_req m ⟨0, 0, 0, 0⟩] := by
        rw [hsent3]
        simp
      rcases hu : unpack32 (pySlice resp3 4 8) with e | er
      · rw [bind_apply]
        simp only [liftE, hu]
        exact ⟨_, hsent3', hq3⟩
      · rw [bind_apply]
        simp only [liftE, hu]
        rcases hp0 : pyIndex resp3 0 with e | b0
        · rw [bind_apply]
          simp only [liftE, hp0]
          exact ⟨_, hsent3', hq3⟩
        · rw [bind_apply]
          simp only [liftE, hp0]
          by_cases habort : (b0 = 0x13 ∨ b0 = 0x14 ∨ b0 = 0x15 ∨ er ≠ 0)
          · rw [if_pos habort]
            exact ⟨_, hsent3', hq3⟩
          · rw [if_neg habort]
            by_cases h47 : b0 = 0x47
            · rw [if_pos h47]
              exact ⟨_, hsent3', hq3⟩
            · rw [if_neg h47]
              have hrest : ∀ (hdr : FactImageReadInfo × FactoryHeader) (wx : Bytes),
                  ∃ l, ((do
                    let total := hdr.2.block_size * hdr.2.block_count *
                      (hdr.2.page_size / 0x200)
                    let lres ← efsread_loop m hdr.1 false total
                    let respEnd ← dsend (efs_req m EFS2_DIAG_FACT_IMAGE_END)
                    if respEnd.length = 0 then pure (some false)
                    else if lres.2 = false then pure (some true)
                    else pure (some false) : DiagM (Option Bool))
                      ⟨(pending.drop 1).drop 1 |>.drop 1, sent3, wx⟩).2.sent =
                    sent0 ++ l ∧
                    ∀ q ∈ l, q.headI = 0x4B ∧ q.get? 1 = some (m % 256) := by
                intro hdr wx
                obtain ⟨outL, stL, hloopeq, ll, hsentL, hallL⟩ := efsread_loop_ok m
                  (hdr.2.block_size * hdr.2.block_count * (hdr.2.page_size / 0x200))
                  hdr.1 false ⟨(pending.drop 1).drop 1 |>.drop 1, sent3, wx⟩
                rw [bind_apply, hloopeq]
                dsimp only
                obtain ⟨respE, hdE⟩ := dsend_state (efs_req m EFS2_DIAG_FACT_IMAGE_END) stL
                rw [bind_apply, hdE]
                dsimp only
                have hfin : (stL.sent ++ [efs_req m EFS2_DIAG_FACT_IMAGE_END]) =
                    sent0 ++ ([efs_req m EFS2_DIAG_PREP_FACT_IMAGE,
                      efs_req m EFS2_DIAG_FACT_IMAGE_START,
                      fact_image_read_req m ⟨0, 0, 0, 0⟩] ++ ll ++
                      [efs_req m EFS2_DIAG_FACT_IMAGE_END]) := by
                  rw [hsentL]
                  dsimp only
                  rw [hsent3']
                  simp
                have hmem : ∀ q ∈ [efs_req m EFS2_DIAG_PREP_FACT_IMAGE,
                    efs_req m EFS2_DIAG_FACT_IMAGE_START,
                    fact_image_read_req m ⟨0, 0, 0, 0⟩] ++ ll ++
                    [efs_req m EFS2_DIAG_FACT_IMAGE_END],
                    q.headI = 0x4B ∧ q.get? 1 = some (m % 256) := by
                  intro q hq
                  rcases List.mem_append.mp hq with hq' | hq'
                  · rcases List.mem_append.mp hq' with hq'' | hq''
                    · exact hq3 q hq''
                    · obtain ⟨f, hf⟩ := hallL q hq''
                      subst hf
                      exact ⟨rfl, rfl⟩
                  · rcases List.mem_singleton.mp hq' with h
                    subst h
                    exact ⟨rfl, rfl⟩
                by_cases hre : respE.length = 0
                · rw [if_pos hre]
                  exact ⟨_, hfin, hmem⟩
                · rw [if_neg hre]
                  by_cases hlr : outL.2 = false
                  · rw [if_pos hlr]
                    exact ⟨_, hfin, hmem⟩
                  · rw [if_neg hlr]
                    exact ⟨_, hfin, hmem⟩
              by_cases hrl : 0 < resp3.length
              · rw [if_pos hrl]
                rw [bind_apply]
                simp only [bind_apply, fwrite]
                rcases hfi : factInfoFromData (pySlice resp3 8 16) with e | f1
                · simp only [liftE, hfi]
                  exact ⟨_, hsent3', hq3⟩
                · simp only [liftE, hfi]
                  rcases hfh : factoryHeaderFromData (pySlice resp3 16 (16 + 39 * 4))
                    with e | fh
                  · simp only [liftE, hfh]
                    exact ⟨_, hsent3', hq3⟩
                  · simp only [liftE, hfh, pure_apply]
                    exact hrest (f1, fh) (w0 ++ pySliceNeg resp3 0x10 0x1)
              · rw [if_neg hrl]
                exact hrest (⟨0, 0, 0, 0⟩, factoryHeaderInit) w0

/-- The loop of unpackdata returns the starting index when the scan opens on
a nonzero byte, and otherwise the position one past the trailing zero run. -/
theorem unpackLoopIdx_spec (rev : List Nat) (p idx : Nat)
    (h : (rev.takeWhile (fun b => b = 0)).length ≤ p + 1) :
    unpackLoopIdx rev p idx =
      if (rev.takeWhile (fun b => b = 0)).length = 0 then idx
      else p + 1 - (rev.takeWhile (fun b => b = 0)).length := by
  induction rev generalizing p idx with
  | nil => simp [unpackLoopIdx]
  | cons b rest ih =>
    by_cases hb : b = 0
    · subst hb
      rw [List.takeWhile_cons_of_pos (by decide)] at h ⊢
      simp only [List.length_cons] at h ⊢
      rw [show unpackLoopIdx (0 :: rest) p idx = unpackLoopIdx rest (p - 1) p by
        simp [unpackLoopIdx]]
      rw [ih (p - 1) p (by omega)]
      rw [if_neg (Nat.succ_ne_zero _)]
      by_cases hz : (rest.takeWhile (fun x => x = 0)).length = 0
      · rw [if_pos hz]
        omega
      · rw [if_neg hz]
        omega
    · have hk : (b :: rest).takeWhile (fun x => decide (x = 0)) = [] :=
        List.takeWhile_cons_of_neg (by simp [hb])
      rw [hk]
      simp [unpackLoopIdx, hb]

/-- Dropping the trailing-zero count from the end is the same as stripping
the trailing zero run. -/
theorem strip_take (data : Bytes) :
    data.take (data.length - (data.reverse.takeWhile (fun b => b = 0)).length) =
      stripTrailZeros data := by
  have hsplit : data.reverse.takeWhile (fun b => decide (b = 0)) ++
      data.reverse.dropWhile (fun b => decide (b = 0)) = data.reverse :=
    List.takeWhile_append_dropWhile _ _
  have hlen : data.length - (data.reverse.takeWhile (fun b => decide (b = 0))).length =
      (data.reverse.dropWhile (fun b => decide (b = 0))).reverse.length := by
    have hl := congrArg List.length hsplit
    simp only [List.length_append, List.length_reverse] at hl ⊢
    omega
  have hdata : data = (data.reverse.dropWhile (fun b => decide (b = 0))).reverse ++
      (data.reverse.takeWhile (fun b => decide (b = 0))).reverse := by
    conv_lhs => rw [← List.reverse_reverse data, ← hsplit]
    rw [List.reverse_append]
  have h2 : ((data.reverse.dropWhile (fun b => decide (b = 0))).reverse ++
        (data.reverse.takeWhile (fun b => decide (b = 0))).reverse).take
        (data.length - (data.reverse.takeWhile (fun b => decide (b = 0))).length) =
      (data.reverse.dropWhile (fun b => decide (b = 0))).reverse :=
    List.take_left' hlen.symm
  rw [← hdata] at h2
  rw [stripTrailZeros]
  exact h2

/-- What unpackdata actually computes: the trailing zero run is stripped
when the data ends in a zero byte, but a final nonzero byte is dropped. -/
theorem unpackdata_eq (data : Bytes) :
    unpackdata data =
      if data.getLast? = some 0 then stripTrailZeros data
      else data.take (data.length - 1) := by
  rcases hrev : data.reverse with _ | ⟨b, rest⟩
  · have hd : data = [] := by
      rw [← List.reverse_reverse data, hrev]
      rfl
    subst hd
    simp [unpackdata, unpackLoopIdx, stripTrailZeros]
  · have hlast : data.getLast? = some b := by
      rw [← List.head?_reverse, hrev]
      rfl
    have hn : data.length = rest.length + 1 := by
      rw [← List.length_reverse, hrev, List.length_cons]
    have hbound : ((b :: rest).takeWhile (fun x => x = 0)).length ≤ (data.length - 1) + 1 := by
      have h1 : ((b :: rest).takeWhile (fun x => decide (x = 0))).length ≤
          (b :: rest).length := by
        conv_rhs => rw [← List.takeWhile_append_dropWhile (fun x => decide (x = 0)) (b :: rest)]
        rw [List.length_append]
        omega
      simp only [List.length_cons] at h1
      omega
    have hmain : unpackdata data = data.take
        (if ((b :: rest).takeWhile (fun x => x = 0)).length = 0 then data.length - 1
         else (data.length - 1) + 1 - ((b :: rest).takeWhile (fun x => x = 0)).length) := by
      rw [unpackdata, hrev, unpackLoopIdx_spec _ _ _ hbound]
    by_cases hb : b = 0
    · subst hb
      rw [hlast, if_pos rfl, hmain]
      have hkpos : 0 < ((0 :: rest).takeWhile (fun x => decide (x = 0))).length := by
        rw [List.takeWhile_cons_of_pos (by decide)]
        simp
      rw [if_neg (by omega)]
      have harith : (data.length - 1) + 1 - ((0 :: rest).takeWhile (fun x => decide (x = 0))).length
          = data.length - (data.reverse.takeWhile (fun x => decide (x = 0))).length := by
        rw [hrev]
        omega
      rw [harith]
      exact strip_take data
    · rw [hlast, if_neg (by simpa using hb), hmain]
      have hk : ((b :: rest).takeWhile (fun x => decide (x = 0))).length = 0 := by
        rw [List.takeWhile_cons_of_neg (by simp [hb])]
        rfl
      rw [if_pos hk]

/-- Indexing byte 0 of a non-empty response yields its head. -/
theorem pyIndex_headI (d : Bytes) (h : d ≠ []) : pyIndex d 0 = .ok d.headI := by
  rcases d with _ | ⟨b, bs⟩
  · exact absurd rfl h
  · rfl

/-- A page-read request is never the END request: the lengths differ. -/
theorem fact_ne_end (m : Nat) (f : FactImageReadInfo) :
    fact_image_read_req m f ≠ efs_req m EFS2_DIAG_FACT_IMAGE_END := by
  intro h
  have hl := congrArg List.length h
  simp [fact_image_read_req, efs_req, le16, le32] at hl

/-- The chunk loop at zero remaining bytes returns the running descriptor. -/
theorem efsreadfile_loop_zero (m : Nat) (fd : Int) (off : Nat) (st : DiagSt) :
    efsreadfile_loop m fd off 0 st = (.ok fd, st) := by
  rw [efsreadfile_loop]
  rfl

/-- One unfolding of the chunk loop when bytes remain. -/
theorem efsreadfile_loop_succ (m : Nat) (fd : Int) (off dataleft : Nat)
    (h : 0 < dataleft) (st : DiagSt) :
    efsreadfile_loop m fd off dataleft st = (do
      let rsize := min dataleft FS_DIAG_MAX_READ_REQ
      let finfo ← efs_read m fd rsize off
      match finfo with
      | .neg1 => pure fd
      | .noneR => liftE (.error .typeError)
      | .fields fd2 off2 _ data => do
          fwrite data
          efsreadfile_loop m fd2 (off2 + rsize) (dataleft - rsize) : DiagM Int) st := by
  rw [efsreadfile_loop]
  rw [dif_pos h]

/-- Every path of efsreadfile that returns at all returns the untouched
num_bytes = 0: the probe-failure, fd = -1, empty-size and write-only paths
return 0 by construction, and the success path returns the local num_bytes
that no statement ever updates. -/
theorem efsreadfile_ok_zero (src dst : String) (st : DiagSt) (n : Nat)
    (h : (efsreadfile src dst st).1 = .ok n) : n = 0 := by
  simp only [efsreadfile, bind_apply] at h
  rcases hp : efs_probe alternateefs_file standardefs_file st with ⟨r, st1⟩
  rw [hp] at h
  rcases r with e | mo
  · exact absurd h (by simp)
  · rcases mo with _ | m
    · exact (Except.ok.inj h).symm
    · simp only [bind_apply] at h
      rcases ho : efs_open m O_RDONLY 0 src st1 with ⟨ro, st2⟩
      rw [ho] at h
      rcases ro with e | fdo
      · exact absurd h (by simp)
      · rcases fdo with _ | fd
        · exact absurd h (by simp [liftE])
        · dsimp only at h
          by_cases hfd : fd = -1
          · rw [if_pos hfd] at h
            exact (Except.ok.inj h).symm
          · rw [if_neg hfd] at h
            simp only [bind_apply] at h
            rcases hf : efs_fstat m fd st2 with ⟨rf, st3⟩
            rw [hf] at h
            rcases rf with e | fres
            · exact absurd h (by simp)
            · rcases fres with _ | _ | ⟨mode, size, nlink, atime, mtime, ctime⟩
              · exact absurd h (by simp [liftE])
              · exact absurd h (by simp [liftE])
              · dsimp only at h
                by_cases hsz : size = 0
                · rw [if_pos hsz] at h
                  simp only [bind_apply] at h
                  rcases hc : efs_close m fd st3 with ⟨rc, st4⟩
                  rw [hc] at h
                  rcases rc with e | u
                  · exact absurd h (by simp)
                  · exact (Except.ok.inj h).symm
                · rw [if_neg hsz] at h
                  by_cases hmode : mode &&& O_ACCMODE = O_WRONLY
                  · rw [if_pos hmode] at h
                    simp only [bind_apply] at h
                    rcases hc : efs_close m fd st3 with ⟨rc, st4⟩
                    rw [hc] at h
                    rcases rc with e | u
                    · exact absurd h (by simp)
                    · exact (Except.ok.inj h).symm
                  · rw [if_neg hmode] at h
                    simp only [bind_apply] at h
                    rcases hl : efsreadfile_loop m fd 0 size st3 with ⟨rl, st4⟩
                    rw [hl] at h
                    rcases rl with e | fd2
                    · exact absurd h (by simp)
                    · simp only [bind_apply] at h
                      rcases hc : efs_close m fd2 st4 with ⟨rc, st5⟩
                      rw [hc] at h
                      rcases rc with e | u
                      · exact absurd h (by simp)
                      · exact (Except.ok.inj h).symm

/-! ## Claims -/

/-- C6: for every byte string, unpackdata returns the input with exactly its
maximal trailing run of zero bytes removed.  Counterexample: on the input
AB, whose maximal trailing zero run is empty, unpackdata removes the final
nonzero byte and returns A. -/
theorem unpackdata_drops_final_nonzero_byte :
    unpackdata [0x41, 0x42] = [0x41] ∧ stripTrailZeros [0x41, 0x42] = [0x41, 0x42] ∧
      unpackdata [0x41, 0x42] ≠ stripTrailZeros [0x41, 0x42] := by decide

/-- C6 (amended): when the input is empty or ends in a zero byte, unpackdata
returns the input with exactly its maximal trailing run of zero bytes
removed — in particular on AB 00 00 00 it returns AB and on 128 zero bytes
it returns the empty string; when the input ends in a nonzero byte it
instead returns the input without its final byte. -/
theorem unpackdata_strips_trailing_zeros (data : Bytes) :
    (unpackdata data =
      if data.getLast? = some 0 then stripTrailZeros data
      else data.take (data.length - 1)) ∧
    unpackdata [0x41, 0x42, 0, 0, 0] = [0x41, 0x42] ∧
    unpackdata (List.replicate 128 0) = [] :=
  ⟨unpackdata_eq data, by decide, by set_option maxRecDepth 4000 in decide⟩

/-- C3: write_nvitem returns True exactly when the write response is
non-empty with leading byte 0x27, the verifying read_nvitem succeeds, and
the read-back payload equals the input data byte for byte; in every other
case (including a device-accepted write whose read-back differs) it does not
report success. -/
theorem write_nvitem_true_iff (nvl : Nat → Option String) (item : Nat) (data : Bytes)
    (wresp : Bytes) (rest : List Bytes) (sent0 : List Bytes) (w0 : Bytes) :
    (write_nvitem nvl item data ⟨wresp :: rest, sent0, w0⟩).1 = .ok (some true)
      ↔ (wresp.head? = some 0x27 ∧
         ∃ nv, (read_nvitem nvl item ⟨rest, sent0 ++ [nv_write_req item data], w0⟩).1 =
             .ok (.success nv) ∧ nv.data = data) := by
  rcases wresp with _ | ⟨b, bs⟩
  · simp only [write_nvitem, bind_apply, dsend]
    simp [pure_apply]
  · by_cases hb : b = 0x27
    · subst hb
      simp only [write_nvitem, bind_apply, dsend]
      simp only [List.length_cons, gt_iff_lt, Nat.succ_pos, if_true, List.headI, if_pos rfl]
      rcases hr : read_nvitem nvl item ⟨rest, sent0 ++ [nv_write_req item data], w0⟩ with ⟨r, st2⟩
      rw [bind_apply, hr]
      rcases r with e | nv | msg
      · simp
      · by_cases hd : nv.data = data
        · simp [hd, pure_apply, NvRes.success.injEq]
        · simp [hd, pure_apply]
      · simp [pure_apply]
    · simp only [write_nvitem, bind_apply, dsend]
      simp [List.headI, hb, pure_apply]

/-- C7: read_nvitem sends its request at most twice, the second send only
when the first response is empty; with both responses empty it fails
mentioning an empty request; with a non-empty effective response it returns
an NVitem exactly when the leading byte echoes 0x26 (and the fixed-width
decode applies), reports the invalid-parameter error on leading byte 0x14,
and an unspecific protocol error on any other leading byte. -/
theorem read_nvitem_retry_and_decode (nvl : Nat → Option String) (item : Nat)
    (r1 r2 : Bytes) (rest sent0 : List Bytes) (w0 : Bytes) :
    (r1 ≠ [] →
      (read_nvitem nvl item ⟨r1 :: r2 :: rest, sent0, w0⟩).2 =
        ⟨r2 :: rest, sent0 ++ [nv_read_req item], w0⟩) ∧
    (r1 = [] →
      (read_nvitem nvl item ⟨r1 :: r2 :: rest, sent0, w0⟩).2 =
        ⟨rest, sent0 ++ [nv_read_req item, nv_read_req item], w0⟩) ∧
    (r1 = [] → r2 = [] →
      (read_nvitem nvl item ⟨r1 :: r2 :: rest, sent0, w0⟩).1 =
        .ok (.failure ("Empty request for nvitem " ++ pyHex item))) ∧
    ∀ d, (r1 ≠ [] ∧ d = r1 ∨ r1 = [] ∧ d = r2) → d ≠ [] →
      ((∃ nv, (read_nvitem nvl item ⟨r1 :: r2 :: rest, sent0, w0⟩).1 = .ok (.success nv)) ↔
        d.headI = 0x26 ∧ ∃ t, decodeNvitem (d.drop 1) = .ok t) ∧
      (d.headI = 0x14 →
        (read_nvitem nvl item ⟨r1 :: r2 :: rest, sent0, w0⟩).1 =
          .ok (.failure ("Error 0x14 trying to read nvitem " ++ pyHex item ++ "."))) ∧
      (d.headI ≠ 0x26 → d.headI ≠ 0x14 →
        (read_nvitem nvl item ⟨r1 :: r2 :: rest, sent0, w0⟩).1 =
          .ok (.failure
            ("Error " ++ pyHex d.headI ++ " trying to read nvitem " ++ pyHex item ++ "."))) := by
  have hresult : ∀ d : Bytes, d ≠ [] →
      ((∃ nv, read_nvitem_result nvl item d = .ok (.success nv)) ↔
        d.headI = 0x26 ∧ ∃ t, decodeNvitem (d.drop 1) = .ok t) ∧
      (d.headI = 0x14 →
        read_nvitem_result nvl item d =
          .ok (.failure ("Error 0x14 trying to read nvitem " ++ pyHex item ++ "."))) ∧
      (d.headI ≠ 0x26 → d.headI ≠ 0x14 →
        read_nvitem_result nvl item d =
          .ok (.failure
            ("Error " ++ pyHex d.headI ++ " trying to read nvitem " ++ pyHex item ++ "."))) := by
    intro d hd
    rcases d with _ | ⟨b, bs⟩
    · exact absurd rfl hd
    · by_cases hb : b = 0x26
      · subst hb
        refine ⟨?_, ?_, ?_⟩
        · simp only [read_nvitem_result, List.length_cons, gt_iff_lt, Nat.succ_pos, if_true,
            List.headI, if_pos rfl]
          rcases hdec : decodeNvitem ((0x26 :: bs).drop 1) with e | t
          · simp
          · simp
        · intro h14
          simp [List.headI] at h14
        · intro h26 _
          simp [List.headI] at h26
      · have hhead : (b :: bs).headI = b := rfl
        refine ⟨?_, ?_, ?_⟩
        · simp only [read_nvitem_result, List.length_cons, gt_iff_lt, Nat.succ_pos, if_true,
            hhead, if_neg hb]
          constructor
          · intro h
            rcases h with ⟨nv, hnv⟩
            split at hnv
            · simp at hnv
            · simp at hnv
          · intro h
            exact absurd h.1 hb
        · intro h14
          rw [hhead] at h14
          subst h14
          simp [read_nvitem_result, List.headI]
        · intro _ h14
          rw [hhead] at h14
          simp [read_nvitem_result, List.headI, hb, h14]
  rcases r1 with _ | ⟨b1, bs1⟩
  · refine ⟨fun h => absurd rfl h, ?_, ?_, ?_⟩
    · intro _
      rw [read_nvitem_run]
      rcases r2 with _ | ⟨b2, bs2⟩ <;> rfl
    · intro _ h2
      subst h2
      rw [read_nvitem_run]
      rfl
    · intro d hd hne
      rcases hd with ⟨h, _⟩ | ⟨_, hdr⟩
      · exact absurd rfl h
      · subst hdr
        rw [read_nvitem_run]
        rcases d with _ | ⟨b2, bs2⟩
        · exact absurd rfl hne
        · exact hresult (b2 :: bs2) hne
  · refine ⟨?_, fun h => absurd h (by simp), ?_, ?_⟩
    · intro _
      rw [read_nvitem_run]
      simp
    · intro h
      exact absurd h (by simp)
    · intro d hd hne
      rcases hd with ⟨_, hdr⟩ | ⟨h, _⟩
      · subst hdr
        rw [read_nvitem_run]
        simp only [List.length_cons, Nat.succ_ne_zero, if_false]
        exact hresult (b1 :: bs1) hne
      · exact absurd h (by simp)

/-- C7 witness: concrete instantiations covering the 0x14 branch, the
double-empty branch, and a successful 0x26 decode. -/
theorem read_nvitem_retry_and_decode_witness :
    (read_nvitem nvlNone 5 ⟨[[0x14], []], [], []⟩).1 =
        .ok (.failure ("Error 0x14 trying to read nvitem " ++ pyHex 5 ++ ".")) ∧
    (read_nvitem nvlNone 5 ⟨[[], []], [], []⟩).1 =
        .ok (.failure ("Empty request for nvitem " ++ pyHex 5)) ∧
    (∃ nv, (read_nvitem nvlNone 5 ⟨[0x26 :: List.replicate 132 0, []], [], []⟩).1 =
        .ok (.success nv)) := by
  refine ⟨?_, ?_, ?_⟩
  · exact (((read_nvitem_retry_and_decode nvlNone 5 [0x14] [] [] [] []).2.2.2
      [0x14] (Or.inl ⟨by decide, rfl⟩) (by decide)).2.1 (by decide))
  · exact ((read_nvitem_retry_and_decode nvlNone 5 [] [] [] [] []).2.2.1 rfl rfl)
  · exact (((read_nvitem_retry_and_decode nvlNone 5 (0x26 :: List.replicate 132 0) []
      [] [] []).2.2.2 (0x26 :: List.replicate 132 0)
      (Or.inl ⟨by simp, rfl⟩) (by simp)).1.mpr
      ⟨rfl, ⟨(0, (List.replicate 128 0, 0)), by set_option maxRecDepth 8000 in decide⟩⟩)

/-- C1 counterexample: when the flat write of item 550 fails (the device
answers 0x14 to the write request, so write_nvitem does not return True),
write_imei does issue a sub-item write at index 0 — the second request on
the wire is exactly the sub-item write request for item 550, index 0. -/
theorem write_imei_retries_index0_as_subitem :
    (write_nvitem nvlNone 550 imeiTestBytes ⟨[[0x14]], [], []⟩).1 = .ok none ∧
    (write_imei nvlNone "490154203237518" ⟨[[0x14]], [], []⟩).2.sent =
      [nv_write_req 550 imeiTestBytes, nv_sub_write_req 550 0 imeiTestBytes] := by
  constructor
  · set_option maxRecDepth 8000 in decide
  · set_option maxRecDepth 8000 in decide

/-- C1 (amended): the first IMEI is always written flat first — the first
request on the wire is the flat write of item 550 — and a sub-item write at
index 0 is issued exactly when that flat write returns a value other than
True (Python None or False); sub-item writes for the first IMEI happen only
as this fallback. -/
theorem write_imei_index0_flat_first_with_fallback (nvl : Nat → Option String)
    (pending : List Bytes) :
    ((write_imei nvl "490154203237518" ⟨pending, [], []⟩).2.sent.headI =
        nv_write_req 550 imeiTestBytes) ∧
    ((∃ r ∈ (write_imei nvl "490154203237518" ⟨pending, [], []⟩).2.sent,
        r.take 8 = [0x4B, 0x30, 0x02, 0x00, 0x26, 0x02, 0x00, 0x00]) ↔
      ∃ v, (write_nvitem nvl 550 imeiTestBytes ⟨pending, [], []⟩).1 = .ok v ∧
        v ≠ some true) := by
  have hsplit : pySplitComma "490154203237518" = ["490154203237518"] := by decide
  have hmain : write_imei nvl "490154203237518" ⟨pending, [], []⟩ =
      write_imei_go nvl ["490154203237518"] 0 ⟨pending, [], []⟩ := by
    rw [write_imei, hsplit]
  have hf1 : (nv_write_req 550 imeiTestBytes).take 8 ≠
      [0x4B, 0x30, 0x02, 0x00, 0x26, 0x02, 0x00, 0x00] := by decide
  have hf2 : (nv_read_req 550).take 8 ≠
      [0x4B, 0x30, 0x02, 0x00, 0x26, 0x02, 0x00, 0x00] := by decide
  have hf3 : (nv_sub_read_req 550 0).take 8 ≠
      [0x4B, 0x30, 0x02, 0x00, 0x26, 0x02, 0x00, 0x00] := by decide
  have hf4 : (nv_sub_write_req 550 0 imeiTestBytes).take 8 =
      [0x4B, 0x30, 0x02, 0x00, 0x26, 0x02, 0x00, 0x00] := by decide
  rw [hmain, write_imei_go_single]
  obtain ⟨lr, hsent1, hall1, _⟩ := write_nvitem_sent nvl 550 imeiTestBytes ⟨pending, [], []⟩
  rcases hw : write_nvitem nvl 550 imeiTestBytes ⟨pending, [], []⟩ with ⟨r, st1⟩
  rw [hw] at hsent1
  dsimp only at hsent1
  simp only [List.nil_append] at hsent1
  have hnosub : ∀ r' ∈ st1.sent, r'.take 8 ≠ [0x4B, 0x30, 0x02, 0x00, 0x26, 0x02, 0x00, 0x00] := by
    intro r' hr'
    rw [hsent1] at hr'
    rcases List.mem_cons.mp hr' with h | h
    · rw [h]
      exact hf1
    · rw [hall1 r' h]
      exact hf2
  rcases r with e | v
  · refine ⟨by rw [hsent1]; rfl, ?_⟩
    constructor
    · intro ⟨r', hr', htake⟩
      exact absurd htake (hnosub r' hr')
    · intro ⟨v, hv, _⟩
      exact absurd hv (by simp)
  · by_cases hv : v = some true
    · subst hv
      simp only [ne_eq, not_true_eq_false, if_neg, not_false_eq_true]
      refine ⟨by rw [hsent1]; rfl, ?_⟩
      constructor
      · intro ⟨r', hr', htake⟩
        exact absurd htake (hnosub r' hr')
      · intro ⟨v', hv', hne⟩
        rw [Except.ok.injEq] at hv'
        exact absurd hv'.symm hne
    · simp only [ne_eq, hv, not_false_eq_true, if_true]
      obtain ⟨ls, hsent2, hall2, _⟩ := write_nvitemsub_sent nvl 550 0 imeiTestBytes st1
      rcases hws : write_nvitemsub nvl 550 0 imeiTestBytes st1 with ⟨r2, st2⟩
      rw [hws] at hsent2
      dsimp only at hsent2
      have hout : ∀ stout : DiagSt, stout.sent = st1.sent ++ nv_sub_write_req 550 0 imeiTestBytes :: ls →
          (stout.sent.headI = nv_write_req 550 imeiTestBytes) ∧
          ((∃ r' ∈ stout.sent,
              r'.take 8 = [0x4B, 0x30, 0x02, 0x00, 0x26, 0x02, 0x00, 0x00]) ↔
            ∃ v', (Except.ok v : Except PyErr (Option Bool)) = .ok v' ∧ v' ≠ some true) := by
        intro stout hsent
        constructor
        · rw [hsent, hsent1]
          rfl
        · constructor
          · intro _
            exact ⟨v, rfl, hv⟩
          · intro _
            refine ⟨nv_sub_write_req 550 0 imeiTestBytes, ?_, hf4⟩
            rw [hsent]
            exact List.mem_append_right _ (List.mem_cons_self _ _)
      rcases r2 with e2 | u
      · exact hout st2 hsent2
      · exact hout st2 hsent2

/-- C5 counterexample: the scan loop is range(0, 0xFFFF), so the id 0xFFFF
is never read — no request for it is ever sent, while id 0xFFFE is read. -/
theorem backup_nvitems_misses_last_id :
    nv_read_req 0xFFFF ∉ (backup_nvitems nvlNone ⟨[], [], []⟩).2.sent ∧
    nv_read_req 0xFFFE ∈ (backup_nvitems nvlNone ⟨[], [], []⟩).2.sent := by
  obtain ⟨out, stout, hloop, l, hsent, hall, hmem⟩ :=
    backup_loop_ok nvlNone (List.range 0xFFFF) [] "" ⟨[], [], []⟩ (by simp)
  have h2 : backup_nvitems nvlNone ⟨[], [], []⟩ = (Except.ok out, stout) := hloop
  rw [h2]
  constructor
  · intro hc
    rw [hsent] at hc
    simp only [List.nil_append] at hc
    obtain ⟨i, hi, hri⟩ := hall _ hc
    have hilt := List.mem_range.mp hi
    have hmod := (nv_read_req_inj 0xFFFF i).mp hri
    omega
  · rw [hsent]
    simp only [List.nil_append]
    exact hmem 0xFFFE (List.mem_range.mpr (by omega))

/-- C5 (amended): backup_nvitems attempts a read of every NV id in the range
0x0 through 0xFFFE — 65535 ids, with 0xFFFF itself excluded by range(0,
0xFFFF) — and of no other id; under a well-formed script the whole scan
returns without raising, a successful read is kept exactly when its status
is not 5 (inactive), and a failed read appends its message to the error log
and never stops the remaining ids from being scanned. -/
theorem backup_nvitems_scan (nvl : Nat → Option String) (pending : List Bytes)
    (hwf : ∀ r ∈ pending, r.headI = 0x26 → 133 ≤ r.length) :
    (∃ out, (backup_nvitems nvl ⟨pending, [], []⟩).1 = .ok out) ∧
    (∀ i, i < 0x10000 →
      (nv_read_req i ∈ (backup_nvitems nvl ⟨pending, [], []⟩).2.sent ↔ i < 0xFFFF)) ∧
    (∀ (item : Nat) (rest : List Nat) (acc : List NvBackupEntry) (errs : String)
        (st : DiagSt),
      backup_loop nvl (item :: rest) acc errs st =
        match read_nvitem nvl item st with
        | (.ok (.success nv), st') =>
            if nv.status ≠ 5 then backup_loop nvl rest (acc ++ [entryOfNv nv]) errs st'
            else backup_loop nvl rest acc errs st'
        | (.ok (.failure m), st') => backup_loop nvl rest acc (errs ++ m ++ "\n") st'
        | (.error e, st') => (.error e, st')) := by
  obtain ⟨out, stout, hloop, l, hsent, hall, hmem⟩ :=
    backup_loop_ok nvl (List.range 0xFFFF) [] "" ⟨pending, [], []⟩ hwf
  have h2 : backup_nvitems nvl ⟨pending, [], []⟩ = (Except.ok out, stout) := hloop
  refine ⟨⟨out, by rw [h2]⟩, ?_, ?_⟩
  · intro i hi
    rw [h2]
    dsimp only
    rw [hsent]
    simp only [List.nil_append]
    constructor
    · intro hc
      obtain ⟨j, hj, hrj⟩ := hall _ hc
      have hjlt := List.mem_range.mp hj
      have hmod := (nv_read_req_inj i j).mp hrj
      omega
    · intro hc
      exact hmem i (List.mem_range.mpr hc)
  · intro item rest acc errs st
    show (backup_loop nvl (item :: rest) acc errs) st = _
    simp only [backup_loop, bind_apply]
    rcases hr : read_nvitem nvl item st with ⟨r, st'⟩
    rcases r with e | nv | m
    · rfl
    · by_cases hs : nv.status = 5
      · simp [hs]
      · simp [hs]
    · rfl

/-- C5 witness: the empty script is well-formed; the scan returns and reads
id 0xFFFE. -/
theorem backup_nvitems_scan_witness :
    (∃ out, (backup_nvitems nvlNone ⟨[], [], []⟩).1 = .ok out) ∧
    (nv_read_req 0xFFFE ∈ (backup_nvitems nvlNone ⟨[], [], []⟩).2.sent ↔ 0xFFFE < 0xFFFF) := by
  have h := backup_nvitems_scan nvlNone [] (by simp)
  exact ⟨h.1, h.2.1 0xFFFE (by omega)⟩

/-- C4: efsreadfile never returns the number of bytes transferred — its
num_bytes local is initialised to 0, never updated, and returned on every
path, so every run that returns a value returns 0; under a script whose
fstat reports size 4 and whose read hands back the four payload bytes
AA BB CC DD, those bytes are written to the local file yet the function
still returns 0 instead of 4. -/
theorem efsreadfile_returns_zero_not_bytes :
    (∀ (src dst : String) (st : DiagSt) (n : Nat),
        (efsreadfile src dst st).1 = .ok n → n = 0) ∧
    (efsreadfile "/a/b" "/tmp" ⟨efs_copy_success_script, [], []⟩).1 = .ok 0 ∧
    (efsreadfile "/a/b" "/tmp" ⟨efs_copy_success_script, [], []⟩).2.written =
      [0xAA, 0xBB, 0xCC, 0xDD] := by
  have h4 := efsreadfile_loop_succ 0x3E 1 0 4 (by omega)
  have h0 := efsreadfile_loop_zero 0x3E 1 4
  refine ⟨efsreadfile_ok_zero, ?_, ?_⟩ <;>
  · norm_num [efsreadfile, efs_probe, efs_open, efs_fstat, efs_close,
      bind_apply, dsend, liftE, pyIndex, pure_apply, efs_copy_success_script, h4, h0,
      fwrite, efs_read, pySlice, unpack32, unpack32s, pack32u, efsdiagerror, O_RDONLY,
      O_WRONLY, O_ACCMODE, FS_DIAG_MAX_READ_REQ, DIAG_BAD_SEC_MODE_F,
      DIAG_BAD_LEN_F, sInt32, rd32, le32, List.replicate, O_RDWR, pack32s]

/-- C4 witness: a probe-failure run returns .ok 0, so the universal part
applies to it. -/
theorem efsreadfile_returns_zero_not_bytes_witness : (0 : Nat) = 0 :=
  efsreadfile_returns_zero_not_bytes.1 "/a" "/t" ⟨[[0], [0]], [], []⟩ 0 rfl

/-- C9 counterexample: with an exhausted script every send returns empty
bytes, and the EFS-family operations then fault on resp[0] of the empty
response — efs_opendir, efs_open, efsread and efsreadfile all propagate an
uncaught IndexError across the public boundary instead of returning a typed
value. -/
theorem efs_ops_raise_on_empty_response :
    (efs_opendir 0x13 "/" ⟨[], [], []⟩).1 = .error .indexError ∧
    (efs_open 0x13 0 0 "/a" ⟨[], [], []⟩).1 = .error .indexError ∧
    (efsread "efs.bin" ⟨[], [], []⟩).1 = .error .indexError ∧
    (efsreadfile "/a" "/tmp" ⟨[], [], []⟩).1 = .error .indexError :=
  ⟨rfl, rfl, rfl, rfl⟩

/-- C9 (amended): on an all-empty-response session the NV-family operations
do return typed values — read_nvitem and read_nvitemsub return the
descriptive Empty-request failure and the write operations return the
Python-None result — but the EFS-family operations (efs_opendir, efs_open,
and through the probe also efsread and efsreadfile) index byte 0 of the
empty response and raise an uncaught IndexError. -/
theorem empty_response_handling (nvl : Nat → Option String)
    (item index m oflag mode : Nat) (data : Bytes) (path fn src dst : String)
    (sent0 : List Bytes) (w0 : Bytes) :
    (read_nvitem nvl item ⟨[], sent0, w0⟩).1 =
        .ok (.failure ("Empty request for nvitem " ++ pyHex item)) ∧
    (read_nvitemsub nvl item index ⟨[], sent0, w0⟩).1 =
        .ok (.failure ("Empty request for nvitem " ++ pyHex item)) ∧
    (write_nvitem nvl item data ⟨[], sent0, w0⟩).1 = .ok none ∧
    (write_nvitemsub nvl item index data ⟨[], sent0, w0⟩).1 = .ok none ∧
    (efs_opendir m path ⟨[], sent0, w0⟩).1 = .error .indexError ∧
    (efs_open m oflag mode path ⟨[], sent0, w0⟩).1 = .error .indexError ∧
    (efsread fn ⟨[], sent0, w0⟩).1 = .error .indexError ∧
    (efsreadfile src dst ⟨[], sent0, w0⟩).1 = .error .indexError :=
  ⟨rfl, rfl, rfl, rfl, rfl, rfl, rfl, rfl⟩

/-- C10: every request efs_read builds carries the EFS2_DIAG_WRITE command
value 5 at byte offset 2, exactly as efs_write does; every other builder of
the engine carries its own command value at offset 2 (for the NV subsystem
family, the sub-command 1 or 2), and none of those values is EFS2_DIAG_READ
= 4, so no request of the engine ever carries the READ tag. -/
theorem efs_read_carries_write_tag :
    EFS2_DIAG_WRITE = 5 ∧ EFS2_DIAG_READ = 4 ∧
    (∀ m fb nbytes offset, (efs_read_req m fb nbytes offset).get? 2 =
        some EFS2_DIAG_WRITE) ∧
    (∀ m fb offset data, (efs_write_req m fb offset data).get? 2 =
        some EFS2_DIAG_WRITE) ∧
    (∀ m oflag mode path, (efs_open_req m oflag mode path).get? 2 = some EFS2_DIAG_OPEN) ∧
    (∀ m fb, (efs_close_req m fb).get? 2 = some EFS2_DIAG_CLOSE) ∧
    (∀ m path, (efs_stat_req m path).get? 2 = some EFS2_DIAG_STAT) ∧
    (∀ m path, (efs_lstat_req m path).get? 2 = some EFS2_DIAG_LSTAT) ∧
    (∀ m fb, (efs_fstat_req m fb).get? 2 = some EFS2_DIAG_FSTAT) ∧
    (∀ m path, (efs_opendir_req m path).get? 2 = some EFS2_DIAG_OPENDIR) ∧
    (∀ m dirp seqno, (efs_readdir_req m dirp seqno).get? 2 = some EFS2_DIAG_READDIR) ∧
    (∀ m dirp, (efs_closedir_req m dirp).get? 2 = some EFS2_DIAG_CLOSEDIR) ∧
    (∀ m path, (efs_rmdir_req m path).get? 2 = some EFS2_DIAG_RMDIR) ∧
    (∀ m path, (efs_unlink_req m path).get? 2 = some EFS2_DIAG_UNLINK) ∧
    (∀ m ub gb path, (efs_chown_req m ub gb path).get? 2 = some EFS2_DIAG_CHOWN) ∧
    (∀ m mode path, (efs_chmod_req m mode path).get? 2 = some EFS2_DIAG_CHMOD) ∧
    (∀ m mode path, (efs_mkdir_req m mode path).get? 2 = some EFS2_DIAG_MKDIR) ∧
    (∀ m dl pl seqno path, (efs_get_req m dl pl seqno path).get? 2 = some EFS2_DIAG_GET) ∧
    (∀ m, (efs_req m EFS2_DIAG_PREP_FACT_IMAGE).get? 2 = some EFS2_DIAG_PREP_FACT_IMAGE) ∧
    (∀ m, (efs_req m EFS2_DIAG_FACT_IMAGE_START).get? 2 =
        some EFS2_DIAG_FACT_IMAGE_START) ∧
    (∀ m, (efs_req m EFS2_DIAG_FACT_IMAGE_END).get? 2 = some EFS2_DIAG_FACT_IMAGE_END) ∧
    (∀ m f, (fact_image_read_req m f).get? 2 = some EFS2_DIAG_FACT_IMAGE_READ) ∧
    alternateefs_fact.get? 2 = some 0x19 ∧ standardefs_fact.get? 2 = some 0x19 ∧
    alternateefs_file.get? 2 = some 0 ∧ standardefs_file.get? 2 = some 0 ∧
    (∀ item index, (nv_sub_read_req item index).get? 2 = some 1) ∧
    (∀ item index data, (nv_sub_write_req item index data).get? 2 = some 2) ∧
    (∀ t, t ∈ [EFS2_DIAG_WRITE, EFS2_DIAG_OPEN, EFS2_DIAG_CLOSE, EFS2_DIAG_STAT,
        EFS2_DIAG_LSTAT, EFS2_DIAG_FSTAT, EFS2_DIAG_OPENDIR, EFS2_DIAG_READDIR,
        EFS2_DIAG_CLOSEDIR, EFS2_DIAG_RMDIR, EFS2_DIAG_UNLINK, EFS2_DIAG_CHOWN,
        EFS2_DIAG_CHMOD, EFS2_DIAG_MKDIR, EFS2_DIAG_GET, EFS2_DIAG_PREP_FACT_IMAGE,
        EFS2_DIAG_FACT_IMAGE_START, EFS2_DIAG_FACT_IMAGE_END, EFS2_DIAG_FACT_IMAGE_READ,
        0x19, 0, 1, 2] → t ≠ EFS2_DIAG_READ) := by
  refine ⟨rfl, rfl, fun m fb nbytes offset => rfl, fun m fb offset data => rfl,
    fun m oflag mode path => rfl, fun m fb => rfl, fun m path => rfl, fun m path => rfl,
    fun m fb => rfl, fun m path => rfl, fun m dirp seqno => rfl, fun m dirp => rfl,
    fun m path => rfl, fun m path => rfl, fun m ub gb path => rfl,
    fun m mode path => rfl, fun m mode path => rfl, fun m dl pl seqno path => rfl,
    fun m => rfl, fun m => rfl, fun m => rfl, fun m f => rfl, rfl, rfl, rfl, rfl,
    fun item index => rfl, fun item index data => rfl, by decide⟩

/-- C10 witness: the tag of a concrete efs_read request, and 5 is not the
READ tag. -/
theorem efs_read_carries_write_tag_witness :
    (efs_read_req 0x3E [1, 0, 0, 0] 4 0).get? 2 = some EFS2_DIAG_WRITE ∧
    EFS2_DIAG_WRITE ≠ EFS2_DIAG_READ := by
  refine ⟨efs_read_carries_write_tag.2.2.1 0x3E [1, 0, 0, 0] 4 0, ?_⟩
  exact efs_read_carries_write_tag.2.2.2.2.2.2.2.2.2.2.2.2.2.2.2.2.2.2.2.2.2.2.2.2.2.2.2.2
    EFS2_DIAG_WRITE (by decide)

/-- C8: efsread probes the alternate method (0x3E) first -- the first request
on the wire is always the alternate factory probe; a 0x4B echo selects
0x3E and every later request of the session carries 0x3E at offset 1; only
otherwise is the standard probe sent, a 0x4B echo selecting 0x13 for every
later request; when neither probe echoes 0x4B the run sends nothing beyond
the two probes and returns the Python None. -/
theorem efs_probe_and_tagging (fn : String) (pending : List Bytes) (w0 : Bytes) :
    ((efsread fn ⟨pending, [], w0⟩).2.sent.headI = alternateefs_fact) ∧
    (∀ p1 rest, pending = p1 :: rest → p1 ≠ [] → p1.headI = 0x4B →
      ∃ l, (efsread fn ⟨pending, [], w0⟩).2.sent = alternateefs_fact :: l ∧
        ∀ q ∈ l, q.headI = 0x4B ∧ q.get? 1 = some 0x3E) ∧
    (∀ p1 p2 rest, pending = p1 :: p2 :: rest → p1 ≠ [] → p1.headI ≠ 0x4B →
      p2 ≠ [] → p2.headI = 0x4B →
      ∃ l, (efsread fn ⟨pending, [], w0⟩).2.sent =
          alternateefs_fact :: standardefs_fact :: l ∧
        ∀ q ∈ l, q.headI = 0x4B ∧ q.get? 1 = some 0x13) ∧
    (∀ p1 p2 rest, pending = p1 :: p2 :: rest → p1 ≠ [] → p1.headI ≠ 0x4B →
      p2 ≠ [] → p2.headI ≠ 0x4B →
      (efsread fn ⟨pending, [], w0⟩).1 = .ok none ∧
        (efsread fn ⟨pending, [], w0⟩).2.sent = [alternateefs_fact, standardefs_fact]) := by
  have halt : ∀ (bs : Bytes) (rest : List Bytes),
      efsread fn ⟨(0x4B :: bs) :: rest, [], w0⟩ =
        efsread_body 0x3E fn ⟨rest, [alternateefs_fact], w0⟩ := by
    intro bs rest
    rfl
  have hstd : ∀ (b : Nat) (bs : Bytes) (hb : b ≠ 0x4B) (cs : Bytes) (rest2 : List Bytes),
      efsread fn ⟨(b :: bs) :: (0x4B :: cs) :: rest2, [], w0⟩ =
        efsread_body 0x13 fn ⟨rest2, [alternateefs_fact, standardefs_fact], w0⟩ := by
    intro b bs hb cs rest2
    have hp : efs_probe alternateefs_fact standardefs_fact
        ⟨(b :: bs) :: (0x4B :: cs) :: rest2, [], w0⟩ =
        (.ok (some 0x13), ⟨rest2, [alternateefs_fact, standardefs_fact], w0⟩) := by
      simp [efs_probe, bind_apply, dsend, pyIndex, liftE, hb, pure_apply]
    rw [efsread_split, hp]
  have hnone : ∀ (b : Nat) (bs : Bytes) (hb : b ≠ 0x4B) (c : Nat) (cs : Bytes)
      (hc : c ≠ 0x4B) (rest2 : List Bytes),
      efsread fn ⟨(b :: bs) :: (c :: cs) :: rest2, [], w0⟩ =
        (.ok none, ⟨rest2, [alternateefs_fact, standardefs_fact], w0⟩) := by
    intro b bs hb c cs hc rest2
    have hp : efs_probe alternateefs_fact standardefs_fact
        ⟨(b :: bs) :: (c :: cs) :: rest2, [], w0⟩ =
        (.ok none, ⟨rest2, [alternateefs_fact, standardefs_fact], w0⟩) := by
      simp [efs_probe, bind_apply, dsend, pyIndex, liftE, hb, hc, pure_apply]
    rw [efsread_split, hp]
  have herr1 : ∀ (b : Nat) (bs : Bytes) (hb : b ≠ 0x4B),
      efsread fn ⟨[b :: bs], [], w0⟩ =
        (.error .indexError, ⟨[], [alternateefs_fact, standardefs_fact], w0⟩) := by
    intro b bs hb
    have hp : efs_probe alternateefs_fact standardefs_fact ⟨[b :: bs], [], w0⟩ =
        (.error .indexError, ⟨[], [alternateefs_fact, standardefs_fact], w0⟩) := by
      simp [efs_probe, bind_apply, dsend, pyIndex, liftE, hb, pure_apply]
    rw [efsread_split, hp]
  have herr2 : ∀ (b : Nat) (bs : Bytes) (hb : b ≠ 0x4B) (rest2 : List Bytes),
      efsread fn ⟨(b :: bs) :: [] :: rest2, [], w0⟩ =
        (.error .indexError, ⟨rest2, [alternateefs_fact, standardefs_fact], w0⟩) := by
    intro b bs hb rest2
    have hp : efs_probe alternateefs_fact standardefs_fact
        ⟨(b :: bs) :: [] :: rest2, [], w0⟩ =
        (.error .indexError, ⟨rest2, [alternateefs_fact, standardefs_fact], w0⟩) := by
      simp [efs_probe, bind_apply, dsend, pyIndex, liftE, hb, pure_apply]
    rw [efsread_split, hp]
  refine ⟨?_, ?_, ?_, ?_⟩
  · rcases pending with _ | ⟨p1, rest⟩
    · rfl
    · rcases p1 with _ | ⟨b, bs⟩
      · rfl
      · by_cases hb : b = 0x4B
        · subst hb
          rw [halt]
          obtain ⟨l, hs, hq⟩ := efsread_body_sent 0x3E fn ⟨rest, [alternateefs_fact], w0⟩
          rw [hs]
          rfl
        · rcases rest with _ | ⟨p2, rest2⟩
          · rw [herr1 b bs hb]
            rfl
          · rcases p2 with _ | ⟨c, cs⟩
            · rw [herr2 b bs hb rest2]
              rfl
            · by_cases hc : c = 0x4B
              · subst hc
                rw [hstd b bs hb cs rest2]
                obtain ⟨l, hs, hq⟩ := efsread_body_sent 0x13 fn
                  ⟨rest2, [alternateefs_fact, standardefs_fact], w0⟩
                rw [hs]
                rfl
              · rw [hnone b bs hb c cs hc rest2]
                rfl
  · intro p1 rest hpend hne hhead
    subst hpend
    rcases p1 with _ | ⟨b, bs⟩
    · exact absurd rfl hne
    · have hb : b = 0x4B := hhead
      subst hb
      rw [halt]
      obtain ⟨l, hs, hq⟩ := efsread_body_sent 0x3E fn ⟨rest, [alternateefs_fact], w0⟩
      refine ⟨l, by rw [hs]; rfl, ?_⟩
      intro q hql
      exact hq q hql
  · intro p1 p2 rest hpend hne1 hh1 hne2 hh2
    subst hpend
    rcases p1 with _ | ⟨b, bs⟩
    · exact absurd rfl hne1
    · rcases p2 with _ | ⟨c, cs⟩
      · exact absurd rfl hne2
      · have hb : b ≠ 0x4B := hh1
        have hc : c = 0x4B := hh2
        subst hc
        rw [hstd b bs hb cs rest]
        obtain ⟨l, hs, hq⟩ := efsread_body_sent 0x13 fn
          ⟨rest, [alternateefs_fact, standardefs_fact], w0⟩
        refine ⟨l, by rw [hs]; rfl, ?_⟩
        intro q hql
        exact hq q hql
  · intro p1 p2 rest hpend hne1 hh1 hne2 hh2
    subst hpend
    rcases p1 with _ | ⟨b, bs⟩
    · exact absurd rfl hne1
    · rcases p2 with _ | ⟨c, cs⟩
      · exact absurd rfl hne2
      · rw [hnone b bs hh1 c cs hh2 rest]
        exact ⟨rfl, rfl⟩

/-- C8 witness: a standard-probe session whose requests all carry 0x13 at
offset 1, and a double-failure session that stops after the two probes. -/
theorem efs_probe_and_tagging_witness :
    (∃ l, (efsread "test" ⟨[[0], [0x4B], []], [], []⟩).2.sent =
        alternateefs_fact :: standardefs_fact :: l ∧
      ∀ q ∈ l, q.headI = 0x4B ∧ q.get? 1 = some 0x13) ∧
    ((efsread "test" ⟨[[0], [0]], [], []⟩).1 = .ok none ∧
      (efsread "test" ⟨[[0], [0]], [], []⟩).2.sent =
        [alternateefs_fact, standardefs_fact]) := by
  constructor
  · exact (efs_probe_and_tagging "test" [[0], [0x4B], []] []).2.2.1 [0] [0x4B] [[]]
      rfl (by decide) (by decide) (by decide) rfl
  · exact (efs_probe_and_tagging "test" [[0], [0]] []).2.2.2 [0] [0] [] rfl (by decide)
      (by decide) (by decide) (by decide)

/-- C2 counterexample: with the alternate probe selected and a non-empty
prepare response, an early abort of the first page read (here a 0x47
security-gate leading byte) returns False with only four requests on the
wire and no FACT_IMAGE_END command ever sent. -/
theorem efsread_abort_test :
    (efsread "efs.bin" ⟨[[0x4B], [1], [], [0x47, 0, 0, 0, 0, 0, 0, 0]], [], []⟩).1 =
        .ok (some false) ∧
    ((efsread "efs.bin" ⟨[[0x4B], [1], [], [0x47, 0, 0, 0, 0, 0, 0, 0]], [], []⟩).2.sent.count
        (efs_req 0x3E EFS2_DIAG_FACT_IMAGE_END)) = 0 ∧
    (efsread "efs.bin" ⟨[[0x4B], [1], [], [0x47, 0, 0, 0, 0, 0, 0, 0]], [], []⟩).2.sent.length
        = 4 := by
  refine ⟨?_, ?_, ?_⟩ <;> decide

/-- C2 (amended): after a non-empty prepare response, the END command is
sent exactly when the first page read passes the abort checks: an early
abort (leading byte 0x13/0x14/0x15, a non-zero embedded error word, or
leading byte 0x47) returns False immediately with no END on the wire, while
a first page that passes the checks always leads to exactly one END request
before the function returns, whatever the page loop does. -/
theorem efsread_end_iff_loop_reached (fn : String) (p1 prep startresp page1 : Bytes)
    (rest : List Bytes) (w0 : Bytes) (er : Nat)
    (hp1 : p1.headI = 0x4B) (hp1ne : p1 ≠ []) (hfn : fn ≠ "") (hprep : prep ≠ [])
    (her : unpack32 (pySlice page1 4 8) = .ok er) (hpg : page1 ≠ []) :
    (page1.headI = 0x13 ∨ page1.headI = 0x14 ∨ page1.headI = 0x15 ∨ er ≠ 0 ∨
        page1.headI = 0x47 →
      (efsread fn ⟨p1 :: prep :: startresp :: page1 :: rest, [], w0⟩).1 =
          .ok (some false) ∧
      (efsread fn ⟨p1 :: prep :: startresp :: page1 :: rest, [], w0⟩).2.sent =
        [alternateefs_fact, efs_req 0x3E EFS2_DIAG_PREP_FACT_IMAGE,
         efs_req 0x3E EFS2_DIAG_FACT_IMAGE_START, fact_image_read_req 0x3E ⟨0, 0, 0, 0⟩] ∧
      ((efsread fn ⟨p1 :: prep :: startresp :: page1 :: rest, [], w0⟩).2.sent.count
          (efs_req 0x3E EFS2_DIAG_FACT_IMAGE_END)) = 0) ∧
    (er = 0 → page1.headI ≠ 0x13 → page1.headI ≠ 0x14 → page1.headI ≠ 0x15 →
        page1.headI ≠ 0x47 → 172 ≤ page1.length →
      (∃ b, (efsread fn ⟨p1 :: prep :: startresp :: page1 :: rest, [], w0⟩).1 =
          .ok (some b)) ∧
      ((efsread fn ⟨p1 :: prep :: startresp :: page1 :: rest, [], w0⟩).2.sent.count
          (efs_req 0x3E EFS2_DIAG_FACT_IMAGE_END)) = 1) := by
  rcases p1 with _ | ⟨b1, bs1⟩
  · exact absurd rfl hp1ne
  · have hb1 : b1 = 0x4B := hp1
    subst hb1
    have hsplit : efsread fn ⟨(0x4B :: bs1) :: prep :: startresp :: page1 :: rest, [], w0⟩ =
        efsread_body 0x3E fn ⟨prep :: startresp :: page1 :: rest, [alternateefs_fact], w0⟩ :=
      rfl
    have hbody : efsread_body 0x3E fn
        ⟨prep :: startresp :: page1 :: rest, [alternateefs_fact], w0⟩ = (do
        let resp1 ← dsend (efs_req 0x3E EFS2_DIAG_PREP_FACT_IMAGE)
        if resp1.length = 0 then pure (some false)
        else do
          let _ ← dsend (efs_req 0x3E EFS2_DIAG_FACT_IMAGE_START)
          let fefs0 : FactImageReadInfo := ⟨0, 0, 0, 0⟩
          let resp ← dsend (fact_image_read_req 0x3E fefs0)
          let error ← liftE (unpack32 (pySlice resp 4 8))
          let b0 ← liftE (pyIndex resp 0)
          if b0 = 0x13 ∨ b0 = 0x14 ∨ b0 = 0x15 ∨ error ≠ 0 then pure (some false)
          else if b0 = 0x47 then pure (some false)
          else do
            let hdr ← if 0 < resp.length then do
                fwrite (pySliceNeg resp 0x10 0x1)
                let fefs1 ← liftE (factInfoFromData (pySlice resp 0x8 0x10))
                let fh ← liftE (factoryHeaderFromData (pySlice resp 0x10 (0x10 + 39 * 4)))
                pure (fefs1, fh)
              else pure (fefs0, factoryHeaderInit)
            let total := hdr.2.block_size * hdr.2.block_count * (hdr.2.page_size / 0x200)
            let lres ← efsread_loop 0x3E hdr.1 false total
            let respEnd ← dsend (efs_req 0x3E EFS2_DIAG_FACT_IMAGE_END)
            if respEnd.length = 0 then pure (some false)
            else if lres.2 = false then pure (some true)
            else pure (some false) : DiagM (Option Bool))
          ⟨prep :: startresp :: page1 :: rest, [alternateefs_fact], w0⟩ := by
      simp [efsread_body, hfn]
    have hd1 : dsend (efs_req 0x3E EFS2_DIAG_PREP_FACT_IMAGE)
        ⟨prep :: startresp :: page1 :: rest, [alternateefs_fact], w0⟩ =
        (.ok prep, ⟨startresp :: page1 :: rest,
          [alternateefs_fact, efs_req 0x3E EFS2_DIAG_PREP_FACT_IMAGE], w0⟩) := rfl
    have hd2 : dsend (efs_req 0x3E EFS2_DIAG_FACT_IMAGE_START)
        ⟨startresp :: page1 :: rest,
          [alternateefs_fact, efs_req 0x3E EFS2_DIAG_PREP_FACT_IMAGE], w0⟩ =
        (.ok startresp, ⟨page1 :: rest,
          [alternateefs_fact, efs_req 0x3E EFS2_DIAG_PREP_FACT_IMAGE,
           efs_req 0x3E EFS2_DIAG_FACT_IMAGE_START], w0⟩) := rfl
    have hd3 : dsend (fact_image_read_req 0x3E ⟨0, 0, 0, 0⟩)
        ⟨page1 :: rest,
          [alternateefs_fact, efs_req 0x3E EFS2_DIAG_PREP_FACT_IMAGE,
           efs_req 0x3E EFS2_DIAG_FACT_IMAGE_START], w0⟩ =
        (.ok page1, ⟨rest,
          [alternateefs_fact, efs_req 0x3E EFS2_DIAG_PREP_FACT_IMAGE,
           efs_req 0x3E EFS2_DIAG_FACT_IMAGE_START,
           fact_image_read_req 0x3E ⟨0, 0, 0, 0⟩], w0⟩) := rfl
    have hplen : ¬ prep.length = 0 := by
      rcases prep with _ | ⟨pc, pcs⟩
      · exact absurd rfl hprep
      · simp
    have hrun : ∀ (res : Except PyErr (Option Bool)) (stf : DiagSt),
        (if page1.headI = 0x13 ∨ page1.headI = 0x14 ∨ page1.headI = 0x15 ∨ er ≠ 0
          then pure (some false)
          else if page1.headI = 0x47 then pure (some false)
          else (do
            let hdr ← if 0 < page1.length then do
                fwrite (pySliceNeg page1 0x10 0x1)
                let fefs1 ← liftE (factInfoFromData (pySlice page1 0x8 0x10))
                let fh ← liftE (factoryHeaderFromData (pySlice page1 0x10 (0x10 + 39 * 4)))
                pure (fefs1, fh)
              else pure ((⟨0, 0, 0, 0⟩ : FactImageReadInfo), factoryHeaderInit)
            let total := hdr.2.block_size * hdr.2.block_count * (hdr.2.page_size / 0x200)
            let lres ← efsread_loop 0x3E hdr.1 false total
            let respEnd ← dsend (efs_req 0x3E EFS2_DIAG_FACT_IMAGE_END)
            if respEnd.length = 0 then pure (some false)
            else if lres.2 = false then pure (some true)
            else pure (some false) : DiagM (Option Bool)))
          ⟨rest,
            [alternateefs_fact, efs_req 0x3E EFS2_DIAG_PREP_FACT_IMAGE,
             efs_req 0x3E EFS2_DIAG_FACT_IMAGE_START,
             fact_image_read_req 0x3E ⟨0, 0, 0, 0⟩], w0⟩ = (res, stf) →
        efsread fn ⟨(0x4B :: bs1) :: prep :: startresp :: page1 :: rest, [], w0⟩ =
          (res, stf) := by
      intro res stf hfin
      rw [hsplit, hbody, bind_apply, hd1]
      dsimp only
      rw [if_neg hplen, bind_apply, hd2]
      dsimp only
      rw [bind_apply, hd3]
      dsimp only
      rw [bind_apply]
      simp only [liftE, her]
      rw [bind_apply]
      simp only [liftE, pyIndex_headI page1 hpg]
      exact hfin
    constructor
    · intro habort
      by_cases hfirst : page1.headI = 0x13 ∨ page1.headI = 0x14 ∨ page1.headI = 0x15 ∨ er ≠ 0
      · have hres := hrun (.ok (some false)) _ (by rw [if_pos hfirst]; rfl)
        rw [hres]
        refine ⟨rfl, rfl, ?_⟩
        exact (by decide : ([alternateefs_fact, efs_req 0x3E EFS2_DIAG_PREP_FACT_IMAGE,
          efs_req 0x3E EFS2_DIAG_FACT_IMAGE_START,
          fact_image_read_req 0x3E ⟨0, 0, 0, 0⟩] : List Bytes).count
            (efs_req 0x3E EFS2_DIAG_FACT_IMAGE_END) = 0)
      · have h47 : page1.headI = 0x47 := by
          rcases habort with h | h | h | h | h
          · exact absurd (Or.inl h) hfirst
          · exact absurd (Or.inr (Or.inl h)) hfirst
          · exact absurd (Or.inr (Or.inr (Or.inl h))) hfirst
          · exact absurd (Or.inr (Or.inr (Or.inr h))) hfirst
          · exact h
        have hres := hrun (.ok (some false)) _
          (by rw [if_neg hfirst, if_pos h47]; rfl)
        rw [hres]
        refine ⟨rfl, rfl, ?_⟩
        exact (by decide : ([alternateefs_fact, efs_req 0x3E EFS2_DIAG_PREP_FACT_IMAGE,
          efs_req 0x3E EFS2_DIAG_FACT_IMAGE_START,
          fact_image_read_req 0x3E ⟨0, 0, 0, 0⟩] : List Bytes).count
            (efs_req 0x3E EFS2_DIAG_FACT_IMAGE_END) = 0)
    · intro her0 h13 h14 h15 h47 hlen
      have hfirst : ¬ (page1.headI = 0x13 ∨ page1.headI = 0x14 ∨ page1.headI = 0x15 ∨
          er ≠ 0) := by
        rintro (h | h | h | h)
        · exact h13 h
        · exact h14 h
        · exact h15 h
        · exact h her0
      have hrl : 0 < page1.length := by
        omega
      obtain ⟨f1, hfi⟩ := factInfoFromData_ok (pySlice page1 0x8 0x10)
        (by rw [pySlice_length]; omega)
      obtain ⟨fh, hfh⟩ := factoryHeaderFromData_ok (pySlice page1 0x10 (0x10 + 39 * 4))
        (by rw [pySlice_length]; omega)
      obtain ⟨outL, stL, hloopeq, ll, hsentL, hallL⟩ := efsread_loop_ok 0x3E
        (fh.block_size * fh.block_count * (fh.page_size / 0x200)) f1 false
        ⟨rest,
          [alternateefs_fact, efs_req 0x3E EFS2_DIAG_PREP_FACT_IMAGE,
           efs_req 0x3E EFS2_DIAG_FACT_IMAGE_START,
           fact_image_read_req 0x3E ⟨0, 0, 0, 0⟩], w0 ++ pySliceNeg page1 0x10 0x1⟩
      obtain ⟨respE, hdE⟩ := dsend_state (efs_req 0x3E EFS2_DIAG_FACT_IMAGE_END) stL
      have hcount : (stL.sent ++ [efs_req 0x3E EFS2_DIAG_FACT_IMAGE_END]).count
          (efs_req 0x3E EFS2_DIAG_FACT_IMAGE_END) = 1 := by
        rw [hsentL]
        dsimp only
        rw [List.count_append, List.count_append]
        have hc0 : ([alternateefs_fact, efs_req 0x3E EFS2_DIAG_PREP_FACT_IMAGE,
            efs_req 0x3E EFS2_DIAG_FACT_IMAGE_START,
            fact_image_read_req 0x3E ⟨0, 0, 0, 0⟩] : List Bytes).count
            (efs_req 0x3E EFS2_DIAG_FACT_IMAGE_END) = 0 := by decide
        have hcll : ll.count (efs_req 0x3E EFS2_DIAG_FACT_IMAGE_END) = 0 := by
          rw [List.count_eq_zero]
          intro hmem
          obtain ⟨f, hf⟩ := hallL _ hmem
          exact fact_ne_end 0x3E f hf.symm
        rw [hc0, hcll]
        rfl
      have hcore : ∀ (res : Except PyErr (Option Bool)),
          ((if respE.length = 0 then pure (some false)
            else if outL.2 = false then pure (some true)
            else pure (some false) : DiagM (Option Bool))
            ⟨stL.pending.drop 1,
              stL.sent ++ [efs_req 0x3E EFS2_DIAG_FACT_IMAGE_END], stL.written⟩ =
            (res, ⟨stL.pending.drop 1,
              stL.sent ++ [efs_req 0x3E EFS2_DIAG_FACT_IMAGE_END], stL.written⟩)) →
          efsread fn ⟨(0x4B :: bs1) :: prep :: startresp :: page1 :: rest, [], w0⟩ =
            (res, ⟨stL.pending.drop 1,
              stL.sent ++ [efs_req 0x3E EFS2_DIAG_FACT_IMAGE_END], stL.written⟩) := by
        intro res hfin
        apply hrun
        rw [if_neg hfirst, if_neg h47, if_pos hrl]
        simp only [bind_apply, fwrite, liftE, hfi, hfh, pure_apply]
        rw [hloopeq]
        dsimp only
        rw [hdE]
        dsimp only
        exact hfin
      by_cases hre : respE.length = 0
      · have hres := hcore (.ok (some false)) (by rw [if_pos hre]; rfl)
        rw [hres]
        exact ⟨⟨false, rfl⟩, hcount⟩
      · by_cases hol : outL.2 = false
        · have hres := hcore (.ok (some true)) (by rw [if_neg hre, if_pos hol]; rfl)
          rw [hres]
          exact ⟨⟨true, rfl⟩, hcount⟩
        · have hres := hcore (.ok (some false)) (by rw [if_neg hre, if_neg hol]; rfl)
          rw [hres]
          exact ⟨⟨false, rfl⟩, hcount⟩

/-- C2 witness: the two cases at concrete scripts -- a 0x47 abort with zero
END requests, and a well-formed first page with exactly one END request. -/
theorem efsread_end_iff_loop_reached_witness :
    ((efsread "efs.bin" ⟨[[0x4B], [1], [], [0x47, 0, 0, 0, 0, 0, 0, 0]], [], []⟩).1 =
        .ok (some false) ∧
      ((efsread "efs.bin" ⟨[[0x4B], [1], [], [0x47, 0, 0, 0, 0, 0, 0, 0]], [], []⟩).2.sent.count
          (efs_req 0x3E EFS2_DIAG_FACT_IMAGE_END)) = 0) ∧
    ((∃ b, (efsread "efs.bin"
          ⟨[[0x4B], [1], [], 0x4B :: List.replicate 171 0, [1]], [], []⟩).1 =
            .ok (some b)) ∧
      ((efsread "efs.bin"
          ⟨[[0x4B], [1], [], 0x4B :: List.replicate 171 0, [1]], [], []⟩).2.sent.count
          (efs_req 0x3E EFS2_DIAG_FACT_IMAGE_END)) = 1) := by
  constructor
  · have h := (efsread_end_iff_loop_reached "efs.bin" [0x4B] [1] []
      [0x47, 0, 0, 0, 0, 0, 0, 0] [] [] 0 rfl (by decide) (by decide) (by decide)
      (by decide) (by decide)).1 (by decide)
    exact ⟨h.1, h.2.2⟩
  · exact (efsread_end_iff_loop_reached "efs.bin" [0x4B] [1] []
      (0x4B :: List.replicate 171 0) [[1]] [] 0 rfl (by decide) (by decide) (by decide)
      (by set_option maxRecDepth 4000 in decide) (by decide)).2 rfl (by decide)
      (by decide) (by decide) (by decide) (by set_option maxRecDepth 4000 in decide)

end QCDiag
